import Mathlib

/-!
# Goproject: a verification development for `main.go`

The program is a small Go web server over a PostgreSQL database.  This file
embeds the parts of `main.go` that carry behaviour:

* the seat-number parsing loop of `calculateSeatsSum` (with the behaviour of
  `strconv.Atoi` and of the slice expression `seat[:len(seat)-1]`),
* the HTTP handlers `homeHandler`, `airportsHandler`, `flightsHandler`,
  `aircraftsHandler`,
* `calculateHandler`, whose goroutines, `sync.Mutex` and `sync.WaitGroup` are
  embedded as an interleaving transition system, the unwinding of a panicking
  goroutine (its deferred `wg.Done()`, then the end of the process) included.

Go values are embedded as follows.  A Go `string` is its sequence of bytes
(`List Nat`, every element below 256).  A Go `int` is an `Int` kept in the
two's-complement range of `intSize` bits by `wrapInt`; `intSize` is
`strconv.IntSize` (32 or 64) and is a parameter of every definition that
depends on it.  A Go `(value, error)` pair is a pair whose second component is
an `Option`.  A run-time panic is the `error` side of `Except Panic`.
-/

namespace Goproject

/-! ## Go strings and integers -/

deriving instance DecidableEq for Except

/-- A Go string: its bytes, in order. `len(s)` is `s.length`. -/
abbrev GoString := List Nat

/-- The bytes of a Go string literal (Go source text is UTF-8). -/
def goString (s : String) : GoString :=
  (s.toList.flatMap String.utf8EncodeChar).map UInt8.toNat

/-- Reduction of a mathematical integer to the two's-complement range of a Go
`int` of `intSize` bits (Go integer arithmetic wraps around on overflow). -/
def wrapInt (intSize : Nat) (x : Int) : Int :=
  (x + 2 ^ (intSize - 1)) % 2 ^ intSize - 2 ^ (intSize - 1)

/-- The two error kinds of `strconv.NumError`. -/
inductive NumError where
  | ErrSyntax
  | ErrRange
  deriving DecidableEq, Repr

/-- The run-time panics and fatal errors the program can raise. -/
inductive Panic where
  | sliceBoundsOutOfRange
  | unlockOfUnlockedMutex
  | negativeWaitGroupCounter
  deriving DecidableEq, Repr

/-- The constant `maxUint64` of package `strconv`. -/
def maxUint64 : Nat := 2 ^ 64 - 1

/-- The loop of `strconv.ParseUint(s, 10, bitSize)` over the bytes of `s`, with
the accumulator `n` (a `uint64`).  A byte outside `'0'..'9'` is a syntax error
(a letter is a digit value of at least 10, which is not below the base).  The
two overflow tests are the library's: `n >= cutoff` before the multiplication,
and `n1 < n || n1 > maxVal` after the addition, which is done modulo `2^64`.
On an error the library returns at once, with the value `maxVal` for a range
error and `0` for a syntax error. -/
def parseUintLoop (maxVal : Nat) : List Nat → Nat → Nat × Option NumError
  | [], n => (n, none)
  | c :: cs, n =>
    if 48 ≤ c ∧ c ≤ 57 then
      if n ≥ maxUint64 / 10 + 1 then (maxVal, some NumError.ErrRange)
      else
        let n10 := n * 10
        let n1 := (n10 + (c - 48)) % 2 ^ 64
        if n1 < n10 ∨ n1 > maxVal then (maxVal, some NumError.ErrRange)
        else parseUintLoop maxVal cs n1
    else (0, some NumError.ErrSyntax)

/-- The call `strconv.ParseUint(s, 10, 0)`: bit size 0 stands for `intSize`. -/
def ParseUint (intSize : Nat) (s : GoString) : Nat × Option NumError :=
  match s with
  | [] => (0, some NumError.ErrSyntax)
  | _ => parseUintLoop (2 ^ intSize - 1) s 0

/-- The call `strconv.ParseInt(s, 10, 0)`: an optional sign byte `'+'` (43) or
`'-'` (45), then `ParseUint` on the rest, then the range test against
`cutoff = 1 << (intSize-1)`. -/
def ParseInt (intSize : Nat) (s : GoString) : Int × Option NumError :=
  match s with
  | [] => (0, some NumError.ErrSyntax)
  | c :: t =>
    let neg : Bool := c = 45
    let s1 : GoString := if c = 43 ∨ c = 45 then t else s
    let r := ParseUint intSize s1
    if r.2 = some NumError.ErrSyntax then (0, some NumError.ErrSyntax)
    else
      let un := r.1
      let cutoff := 2 ^ (intSize - 1)
      if neg = false ∧ un ≥ cutoff then (((cutoff - 1 : Nat) : Int), some NumError.ErrRange)
      else if neg = true ∧ un > cutoff then (-(cutoff : Int), some NumError.ErrRange)
      else (if neg then -(un : Int) else (un : Int), none)

/-- The function `strconv.Atoi`: by its contract it is `ParseInt(s, 10, 0)`
converted to type `int` (its fast path for short strings returns the same
values and errors). -/
def Atoi (intSize : Nat) (s : GoString) : Int × Option NumError :=
  let r := ParseInt intSize s
  (wrapInt intSize r.1, r.2)

/-- The slice expression `s[:hi]` on a string: it panics unless
`0 <= hi <= len(s)`. -/
def sliceTo (s : GoString) (hi : Int) : Except Panic GoString :=
  if 0 ≤ hi ∧ hi ≤ (s.length : Int) then Except.ok (s.take hi.toNat)
  else Except.error Panic.sliceBoundsOutOfRange

/-! ## The database -/

/-- The error of a failed `db.Query`. -/
inductive DbError where
  | queryFailed
  deriving DecidableEq, Repr

/-- Struct `Airport`. -/
structure Airport where
  Code : GoString
  Name : GoString
  deriving DecidableEq, Repr

/-- Struct `Flight`. -/
structure Flight where
  ID : Int
  Number : GoString
  deriving DecidableEq, Repr

/-- Struct `Aircraft`. -/
structure Aircraft where
  Code : GoString
  deriving DecidableEq, Repr

/-- Struct `Result`; `TimeTaken` is a `time.Duration` (nanoseconds). -/
structure Result where
  AircraftCode : GoString
  Square : Int
  TimeTaken : Int
  deriving DecidableEq, Repr

/-- Struct `FlightsPageData`. -/
structure FlightsPageData where
  AirportCode : GoString
  Flights : List Flight
  deriving DecidableEq, Repr

/-- Struct `CalculationPageData`. -/
structure CalculationPageData where
  Results : List Result
  deriving DecidableEq, Repr

/-- What the global pool `db` answers to the four queries of the program.  A
query either fails (`db.Query` returns an error) or yields the rows that
`rows.Next()` iterates over; a row is `none` when `rows.Scan` fails on it and
`some v` when it scans to `v`. -/
structure Database where
  airports : Except DbError (List (Option Airport))
  flights : GoString → Except DbError (List (Option Flight))
  aircrafts : Except DbError (List (Option Aircraft))
  seats : GoString → Except DbError (List (Option GoString))

/-! ## `calculateSeatsSum` -/

/-- One iteration of the `for rows.Next()` loop of `calculateSeatsSum` on the
running `sum`: a row whose scan fails is skipped; otherwise the seat is sliced
to `seat[:len(seat)-1]`, parsed by `Atoi`, and added when `err == nil`. -/
def seatStep (intSize : Nat) (sum : Int) (row : Option GoString) : Except Panic Int :=
  match row with
  | none => Except.ok sum
  | some seat =>
    match sliceTo seat ((seat.length : Int) - 1) with
    | Except.error p => Except.error p
    | Except.ok pre =>
      let r := Atoi intSize pre
      if r.2 = none then Except.ok (wrapInt intSize (sum + r.1)) else Except.ok sum

/-- The `for rows.Next()` loop of `calculateSeatsSum`. -/
def seatsLoop (intSize : Nat) : List (Option GoString) → Int → Except Panic Int
  | [], sum => Except.ok sum
  | row :: rest, sum =>
    match seatStep intSize sum row with
    | Except.error p => Except.error p
    | Except.ok sum1 => seatsLoop intSize rest sum1

/-- The function `calculateSeatsSum`: a failed query is logged and gives 0;
otherwise the loop runs from `sum := 0`. -/
def calculateSeatsSum (intSize : Nat) (db : Database) (aircraftCode : GoString) :
    Except Panic Int :=
  match db.seats aircraftCode with
  | Except.error _ => Except.ok 0
  | Except.ok rows => seatsLoop intSize rows 0

/-! ## HTTP requests and responses -/

/-- The part of `*http.Request` the handlers read: the parsed query string
`r.URL.Query()`, a `url.Values`, which maps a key to its list of values. -/
structure Request where
  URLQuery : GoString → List GoString

/-- The method `url.Values.Get`: the first value of the key, or the empty
string when the key has no value. -/
def Request.queryGet (r : Request) (key : GoString) : GoString :=
  match r.URLQuery key with
  | [] => []
  | v :: _ => v

/-- The data value handed to `tmpl.ExecuteTemplate`. -/
inductive TemplateData where
  | null
  | airports (airports : List Airport)
  | flights (data : FlightsPageData)
  | calculation (data : CalculationPageData)
  deriving DecidableEq, Repr

/-- What a handler writes to its `http.ResponseWriter`: `http.Redirect`,
`http.Error`, or the execution of a named template against a data value. -/
inductive Response where
  | redirect (url : GoString) (code : Nat)
  | error (body : GoString) (code : Nat)
  | template (name : GoString) (data : TemplateData)
  deriving DecidableEq, Repr

/-- The status code of a response: `http.Redirect` and `http.Error` write the
code they are given; a handler that only writes a body answers 200. -/
def Response.status : Response → Nat
  | Response.redirect _ code => code
  | Response.error _ code => code
  | Response.template _ _ => 200

/-- The four query shapes sent to the database. -/
inductive Query where
  | airports
  | flights (airportCode : GoString)
  | aircrafts
  | seats (aircraftCode : GoString)
  deriving DecidableEq, Repr

/-- What a sequential handler did: the queries it issued, in order, and the
response it wrote. -/
structure Outcome where
  queries : List Query
  response : Response
  deriving DecidableEq, Repr

/-- The row loop shared by the handlers: `for rows.Next()`, a row whose `Scan`
fails is logged and skipped (`continue`), any other row is appended. -/
def scanLoop {α : Type} : List (Option α) → List α → List α
  | [], acc => acc
  | none :: rest, acc => scanLoop rest acc
  | some a :: rest, acc => scanLoop rest (acc ++ [a])

/-- The function `homeHandler`. -/
def homeHandler : Outcome :=
  { queries := [], response := Response.redirect (goString "/airports") 302 }

/-- The function `airportsHandler`. -/
def airportsHandler (db : Database) : Outcome :=
  match db.airports with
  | Except.error _ =>
    { queries := [Query.airports], response := Response.error (goString "Database error") 500 }
  | Except.ok rows =>
    { queries := [Query.airports],
      response := Response.template (goString "airports.html")
        (TemplateData.airports (scanLoop rows [])) }

/-- The function `flightsHandler`. -/
def flightsHandler (db : Database) (r : Request) : Outcome :=
  let airportCode := r.queryGet (goString "airport")
  if airportCode = [] then
    { queries := [], response := Response.error (goString "Airport code required") 400 }
  else
    match db.flights airportCode with
    | Except.error _ =>
      { queries := [Query.flights airportCode],
        response := Response.error (goString "Database error") 500 }
    | Except.ok rows =>
      { queries := [Query.flights airportCode],
        response := Response.template (goString "flights.html")
          (TemplateData.flights { AirportCode := airportCode, Flights := scanLoop rows [] }) }

/-- The function `aircraftsHandler`. -/
def aircraftsHandler : Outcome :=
  { queries := [], response := Response.template (goString "aircrafts.html") TemplateData.null }

/-! ## `calculateHandler`: the fan-out as a transition system -/

/-- The body of the goroutine up to `mu.Lock()` (lines 171-174 and the struct
literal): the seat sum, its square in `int` arithmetic, and the measured
duration `elapsed`, which is whatever `time.Since(start)` returns. -/
def taskResult (intSize : Nat) (db : Database) (a : Aircraft) (elapsed : Int) :
    Except Panic Result :=
  match calculateSeatsSum intSize db a.Code with
  | Except.error p => Except.error p
  | Except.ok sum =>
    Except.ok { AircraftCode := a.Code, Square := wrapInt intSize (sum * sum),
                TimeTaken := elapsed }

/-- Where a goroutine `go func(a Aircraft)` stands.
`start`: `defer wg.Done()` is registered, nothing else done yet.
`computed r`: `r` is built, next is `mu.Lock()`.
`locked r`: `mu.Lock()` returned, next is the read of `results` by `append`.
`appending r old`: `append` has read `old`, next is the store
`results = old ++ [r]`. `appended`: next is `mu.Unlock()`. `unlocked`: next is
the deferred `wg.Done()`. `done`: the goroutine has returned.
`panicking p`: the goroutine has panicked with `p` and is unwinding, next is
the deferred `wg.Done()`. `unwound p`: the deferred call has run and nothing
has recovered `p`, next is the run-time system ending the process. -/
inductive TaskPC where
  | start
  | computed (r : Result)
  | locked (r : Result)
  | appending (r : Result) (old : List Result)
  | appended
  | unlocked
  | done
  | panicking (p : Panic)
  | unwound (p : Panic)
  deriving DecidableEq, Repr

/-- A launched goroutine: its argument and where it stands. -/
structure Task where
  a : Aircraft
  pc : TaskPC
  deriving DecidableEq, Repr

/-- Where the handler's own goroutine stands after the aircraft list is read.
`loop rest`: at the head of `for _, aircraft := range aircrafts` with `rest`
still to go; `loop []` is the call `wg.Wait()`. `launch a rest`: `wg.Add(1)`
is done, next is the `go` statement for `a`. `afterWait`: `wg.Wait()` has
returned, next is the read of `results` into `data` and the rendering.
`rendered data`: `results.html` has been executed against `data`. -/
inductive MainPC where
  | loop (rest : List Aircraft)
  | launch (a : Aircraft) (rest : List Aircraft)
  | afterWait
  | rendered (data : CalculationPageData)
  deriving DecidableEq, Repr

/-- The state of one request to `calculateHandler` during the fan-out: the
handler's goroutine, the launched goroutines in launch order, the counter of
`wg`, the mutex `mu` (`none` when unlocked; when locked, the index of the
goroutine whose `Lock` succeeded, which the Go mutex itself does not record),
the shared slice `results`, and, once the run-time system has ended the
process, the panic or fatal error it ended with. -/
structure State where
  main : MainPC
  tasks : List Task
  wg : Int
  mu : Option Nat
  results : List Result
  exited : Option Panic
  deriving DecidableEq, Repr

/-- A scheduling decision: the handler's goroutine takes its next step, or
goroutine `i` does; `elapsed` is the duration its clock reads if that step is
the computation. -/
inductive Choice where
  | main
  | task (i : Nat) (elapsed : Int)
  deriving DecidableEq, Repr

/-- The state after `wg`, `mu` and `results` are declared (lines 162-164). -/
def fanOutInit (aircrafts : List Aircraft) : State :=
  { main := MainPC.loop aircrafts, tasks := [], wg := 0, mu := none, results := [],
    exited := none }

/-- The next step of the handler's goroutine; `none` when it is blocked in
`wg.Wait()` or has finished. -/
def stepMain (s : State) : Option State :=
  match s.main with
  | MainPC.loop (a :: rest) => some { s with wg := s.wg + 1, main := MainPC.launch a rest }
  | MainPC.launch a rest =>
    some { s with tasks := s.tasks ++ [{ a := a, pc := TaskPC.start }], main := MainPC.loop rest }
  | MainPC.loop [] => if s.wg = 0 then some { s with main := MainPC.afterWait } else none
  | MainPC.afterWait => some { s with main := MainPC.rendered { Results := s.results } }
  | MainPC.rendered _ => none

/-- The next step of goroutine `i`; `none` when there is no such goroutine, when
it is blocked in `mu.Lock()`, or when it has returned.

A panic in `calculateSeatsSum` does not end the process at once: the goroutine
unwinds, which runs its deferred `wg.Done()` (main.go:169), and only then,
the panic not being recovered, does the run-time system end the process; the
other goroutines go on taking steps in between.  A `wg.Done()` that makes the
counter negative panics after the decrement, with nothing left to unwind.  An
unlock of an unlocked mutex is a fatal error, which ends the process at
once. -/
def stepTask (intSize : Nat) (db : Database) (s : State) (i : Nat) (elapsed : Int) :
    Option State :=
  match s.tasks[i]? with
  | none => none
  | some t =>
    match t.pc with
    | TaskPC.start =>
      match taskResult intSize db t.a elapsed with
      | Except.error p =>
        some { s with tasks := s.tasks.set i { a := t.a, pc := TaskPC.panicking p } }
      | Except.ok r => some { s with tasks := s.tasks.set i { a := t.a, pc := TaskPC.computed r } }
    | TaskPC.computed r =>
      match s.mu with
      | some _ => none
      | none =>
        some { s with mu := some i, tasks := s.tasks.set i { a := t.a, pc := TaskPC.locked r } }
    | TaskPC.locked r =>
      some { s with tasks := s.tasks.set i { a := t.a, pc := TaskPC.appending r s.results } }
    | TaskPC.appending r old =>
      some { s with results := old ++ [r],
                    tasks := s.tasks.set i { a := t.a, pc := TaskPC.appended } }
    | TaskPC.appended =>
      match s.mu with
      | none => some { s with exited := some Panic.unlockOfUnlockedMutex }
      | some _ =>
        some { s with mu := none, tasks := s.tasks.set i { a := t.a, pc := TaskPC.unlocked } }
    | TaskPC.unlocked =>
      if s.wg - 1 < 0 then
        some { s with wg := s.wg - 1,
                      tasks := s.tasks.set i
                        { a := t.a, pc := TaskPC.unwound Panic.negativeWaitGroupCounter } }
      else some { s with wg := s.wg - 1, tasks := s.tasks.set i { a := t.a, pc := TaskPC.done } }
    | TaskPC.done => none
    | TaskPC.panicking p =>
      if s.wg - 1 < 0 then
        some { s with wg := s.wg - 1,
                      tasks := s.tasks.set i
                        { a := t.a, pc := TaskPC.unwound Panic.negativeWaitGroupCounter } }
      else some { s with wg := s.wg - 1, tasks := s.tasks.set i { a := t.a, pc := TaskPC.unwound p } }
    | TaskPC.unwound p => some { s with exited := some p }

/-- One step of the program under a scheduling decision; once the run-time
system has ended the process, no goroutine takes a step. -/
def step (intSize : Nat) (db : Database) (s : State) (c : Choice) : Option State :=
  match s.exited with
  | some _ => none
  | none =>
    match c with
    | Choice.main => stepMain s
    | Choice.task i elapsed => stepTask intSize db s i elapsed

/-- The execution of a schedule from a state; `none` when the schedule names a
step that cannot be taken. -/
def run (intSize : Nat) (db : Database) : State → List Choice → Option State
  | s, [] => some s
  | s, c :: cs =>
    match step intSize db s c with
    | none => none
    | some s1 => run intSize db s1 cs

/-- How a request to `calculateHandler` stands at the end of a schedule: the
handler has written its response and the process is alive, the process has
been ended by a panic, or neither yet. -/
inductive CalcRun where
  | responded (resp : Response)
  | crashed (p : Panic)
  | unfinished
  deriving DecidableEq, Repr

/-- The function `calculateHandler` under a schedule of its goroutines: the
aircraft query and its row loop, then the fan-out, then the rendering of
`results.html`.  The run is `unfinished` when the schedule is not an execution
or stops before the handler has rendered. -/
def calculateHandler (intSize : Nat) (db : Database) (sched : List Choice) : CalcRun :=
  match db.aircrafts with
  | Except.error _ => CalcRun.responded (Response.error (goString "Database error") 500)
  | Except.ok rows =>
    match run intSize db (fanOutInit (scanLoop rows [])) sched with
    | none => CalcRun.unfinished
    | some s =>
      match s.exited with
      | some p => CalcRun.crashed p
      | none =>
        match s.main with
        | MainPC.rendered data =>
          CalcRun.responded
            (Response.template (goString "results.html") (TemplateData.calculation data))
        | _ => CalcRun.unfinished

/-! ## Notions used to state the properties -/

/-- The byte is an ASCII decimal digit, `'0'..'9'`. -/
def isDigit (c : Nat) : Prop := 48 ≤ c ∧ c ≤ 57

instance : DecidablePred isDigit := fun c => by unfold isDigit; infer_instance

/-- The byte is an ASCII letter, `'A'..'Z'` or `'a'..'z'`. -/
def isLetter (c : Nat) : Prop := (65 ≤ c ∧ c ≤ 90) ∨ (97 ≤ c ∧ c ≤ 122)

instance : DecidablePred isLetter := fun c => by unfold isLetter; infer_instance

/-- The number denoted by the decimal digits `ds` read after the number `n`. -/
def decimalFrom (n : Nat) (ds : List Nat) : Nat :=
  ds.foldl (fun n c => n * 10 + (c - 48)) n

/-- The integer value of a string of decimal digits. -/
def decimalValue (ds : List Nat) : Nat := decimalFrom 0 ds

/-- The seat identifier has the form `<digits><single-letter>`: one or more
decimal digits followed by exactly one letter. -/
def seatForm (seat : GoString) : Prop :=
  seat.dropLast ≠ [] ∧ (∀ d ∈ seat.dropLast, isDigit d) ∧
    match seat.getLast? with
    | some c => isLetter c
    | none => False

instance : DecidablePred seatForm := fun seat => by
  unfold seatForm
  cases seat.getLast? <;> infer_instance

/-- The value of a non-empty string of decimal digits. -/
def digitsValue (ds : GoString) : Option Nat :=
  if ds ≠ [] ∧ ∀ d ∈ ds, isDigit d then some (decimalValue ds) else none

/-- The integer denoted by an optionally signed decimal numeral: an optional
`'+'` or `'-'`, then one or more decimal digits. -/
def signedValue (p : GoString) : Option Int :=
  match p with
  | [] => none
  | c :: t =>
    if c = 43 then (digitsValue t).map (fun (n : Nat) => (n : Int))
    else if c = 45 then (digitsValue t).map (fun (n : Nat) => -(n : Int))
    else (digitsValue p).map (fun (n : Nat) => (n : Int))

/-- The integer is a value of a Go `int` of `intSize` bits. -/
def inRange (intSize : Nat) (v : Int) : Prop :=
  -(2 ^ (intSize - 1) : Int) ≤ v ∧ v < 2 ^ (intSize - 1)

instance (intSize : Nat) : DecidablePred (inRange intSize) := fun v => by
  unfold inRange; infer_instance

/-- The integer a string denotes as an optionally signed decimal numeral that
fits a Go `int`, if it is one. -/
def parsedValue (intSize : Nat) (p : GoString) : Option Int :=
  match signedValue p with
  | none => none
  | some v => if inRange intSize v then some v else none

/-- The contribution of a row of the seat query: nothing for a row that does
not scan, the integer the seat denotes before its last byte when that text is
an optionally signed decimal numeral that fits a Go `int`, and nothing
otherwise. -/
def contribution (intSize : Nat) (row : Option GoString) : Int :=
  match row with
  | none => 0
  | some seat =>
    match parsedValue intSize seat.dropLast with
    | some v => v
    | none => 0

/-- The pair `{AircraftCode, Square}` of a `Result`, its `TimeTaken` left out. -/
def Result.pair (r : Result) : GoString × Int := (r.AircraftCode, r.Square)

/-- The pair `{AircraftCode, Square}` the goroutine of an aircraft computes
(the square is irrelevant when `calculateSeatsSum` panics). -/
def expectedPair (intSize : Nat) (db : Database) (a : Aircraft) : GoString × Int :=
  (a.Code,
    match calculateSeatsSum intSize db a.Code with
    | Except.ok sum => wrapInt intSize (sum * sum)
    | Except.error _ => 0)

/-- The row scans to a seat whose text before the last byte is an optionally
signed decimal numeral that fits a Go `int`. -/
def parses (intSize : Nat) (row : Option GoString) : Bool :=
  match row with
  | none => false
  | some seat => (parsedValue intSize seat.dropLast).isSome

/-- A database with the given aircraft rows and seat query, and no airports or
flights. -/
def fleetDb (aircrafts : List GoString)
    (seats : GoString → Except DbError (List (Option GoString))) : Database :=
  { airports := Except.ok [],
    flights := fun _ => Except.ok [],
    aircrafts := Except.ok (aircrafts.map (fun c => some { Code := c })),
    seats := seats }

/-- The `{AircraftCode, Square}` pairs a response shows: those of the results
page, and none for any other response. -/
def Response.pairs : Response → List (GoString × Int)
  | Response.template _ (TemplateData.calculation data) => data.Results.map Result.pair
  | _ => []

/-- A sample database: aircraft `"320"` with the seats `"1A"`, `"1B"`, `"2A"`,
and aircraft `"733"`, whose seat query fails. -/
def sampleDb : Database :=
  fleetDb [goString "320", goString "733"]
    (fun c =>
      if c = goString "320" then
        Except.ok [some (goString "1A"), some (goString "1B"), some (goString "2A")]
      else Except.error DbError.queryFailed)

/-- A schedule for two aircraft: both goroutines are launched, the first runs
to its end, then the second, then the handler passes `wg.Wait()` and renders. -/
def scheduleInOrder : List Choice :=
  [Choice.main, Choice.main, Choice.main, Choice.main,
   Choice.task 0 5, Choice.task 0 0, Choice.task 0 0, Choice.task 0 0, Choice.task 0 0,
   Choice.task 0 0,
   Choice.task 1 7, Choice.task 1 0, Choice.task 1 0, Choice.task 1 0, Choice.task 1 0,
   Choice.task 1 0,
   Choice.main, Choice.main]

/-- A schedule for two aircraft in which the first goroutine computes before
the second is launched, and the second takes the lock and stores its `Result`
first. -/
def scheduleOvertaking : List Choice :=
  [Choice.main, Choice.main, Choice.task 0 9, Choice.main, Choice.main,
   Choice.task 1 3, Choice.task 1 0, Choice.task 1 0, Choice.task 1 0, Choice.task 1 0,
   Choice.task 0 0, Choice.task 1 0, Choice.task 0 0, Choice.task 0 0, Choice.task 0 0,
   Choice.task 0 0,
   Choice.main, Choice.main]

/-- The state the sample database reaches after the first seven steps of
`scheduleOvertaking`: both goroutines are launched and have computed, and the
second one holds the lock. -/
def sampleMidState : State :=
  { main := MainPC.loop [],
    tasks :=
      [{ a := { Code := goString "320" },
         pc := TaskPC.computed
           { AircraftCode := goString "320", Square := 16, TimeTaken := 9 } },
       { a := { Code := goString "733" },
         pc := TaskPC.locked
           { AircraftCode := goString "733", Square := 0, TimeTaken := 3 } }],
    wg := 2,
    mu := some 1,
    results := [],
    exited := none }

/-- A database with aircraft `"320"`, whose one seat row scans to the empty
string, and aircraft `"733"` with the one seat `"1A"`. -/
def emptySeatDb : Database :=
  fleetDb [goString "320", goString "733"]
    (fun c =>
      if c = goString "320" then Except.ok [some (goString "")]
      else Except.ok [some (goString "1A")])

/-- A database with aircraft `"320"`, whose one seat row scans to the empty
string, and aircraft `"733"`, whose seat query fails. -/
def emptySeatAndFailingDb : Database :=
  fleetDb [goString "320", goString "733"]
    (fun c =>
      if c = goString "320" then Except.ok [some (goString "")]
      else Except.error DbError.queryFailed)

/-- A schedule for two aircraft: both goroutines are launched, the second runs
to its end, the first panics in its computation and runs its deferred
`wg.Done()`, and the handler passes `wg.Wait()` and renders before the run-time
system has ended the process. -/
def scheduleRenderBeforeExit : List Choice :=
  [Choice.main, Choice.main, Choice.main, Choice.main,
   Choice.task 1 7, Choice.task 1 0, Choice.task 1 0, Choice.task 1 0, Choice.task 1 0,
   Choice.task 1 0,
   Choice.task 0 5, Choice.task 0 0,
   Choice.main, Choice.main]

/-- A schedule in which the first goroutine is launched, panics in its
computation, runs its deferred `wg.Done()`, and the run-time system ends the
process, all before the handler launches the second goroutine. -/
def scheduleExitFirst : List Choice :=
  [Choice.main, Choice.main, Choice.task 0 5, Choice.task 0 0, Choice.task 0 0]

/-- A request whose URL query has the given values of `airport` and nothing
else. -/
def airportRequest (values : List GoString) : Request :=
  { URLQuery := fun key => if key = goString "airport" then values else [] }

/-- A database every query of which fails. -/
def failingDb : Database :=
  { airports := Except.error DbError.queryFailed,
    flights := fun _ => Except.error DbError.queryFailed,
    aircrafts := Except.error DbError.queryFailed,
    seats := fun _ => Except.error DbError.queryFailed }

/-! ## Notions used to reason about the fan-out -/

/-- The goroutine is between the return of `mu.Lock()` and `mu.Unlock()`. -/
def TaskPC.inCritical : TaskPC → Bool
  | TaskPC.locked _ => true
  | TaskPC.appending _ _ => true
  | TaskPC.appended => true
  | _ => false

/-- The goroutine has stored its `Result` into `results`. -/
def TaskPC.hasAppended : TaskPC → Bool
  | TaskPC.appended => true
  | TaskPC.unlocked => true
  | TaskPC.done => true
  | _ => false

/-- The function of the goroutine has ended and its deferred `wg.Done()` has
run: it has returned, or a panic has unwound it. -/
def TaskPC.hasEnded : TaskPC → Bool
  | TaskPC.done => true
  | TaskPC.unwound _ => true
  | _ => false

/-- The goroutine has not yet called `calculateSeatsSum`, that is, it has
neither queried the seats nor squared the sum. -/
def TaskPC.isStart : TaskPC → Bool
  | TaskPC.start => true
  | _ => false

/-- The aircraft the handler has not launched a goroutine for yet. -/
def MainPC.pending : MainPC → List Aircraft
  | MainPC.loop rest => rest
  | MainPC.launch a rest => a :: rest
  | MainPC.afterWait => []
  | MainPC.rendered _ => []

/-- The units added to `wg` for goroutines not launched yet. -/
def MainPC.added : MainPC → Int
  | MainPC.launch _ _ => 1
  | _ => 0

/-- The handler's goroutine is past `wg.Wait()`. -/
def MainPC.pastWait : MainPC → Bool
  | MainPC.afterWait => true
  | MainPC.rendered _ => true
  | _ => false

/-- The call `calculateSeatsSum(a.Code)` returns (it does not panic). -/
def returns (intSize : Nat) (db : Database) (a : Aircraft) : Bool :=
  match calculateSeatsSum intSize db a.Code with
  | Except.ok _ => true
  | Except.error _ => false

/-- What is known of a goroutine at a given place: the `Result` it has built
carries the pair of its aircraft, the slice `append` has read is the current
value of `results`, a goroutine past the computation is one whose
`calculateSeatsSum` returned, and a goroutine that panics does so with the
panic of its `calculateSeatsSum`. -/
def TaskPC.wellFormed (intSize : Nat) (db : Database) (results : List Result) (a : Aircraft) :
    TaskPC → Prop
  | TaskPC.start => True
  | TaskPC.computed r => r.pair = expectedPair intSize db a ∧ returns intSize db a = true
  | TaskPC.locked r => r.pair = expectedPair intSize db a ∧ returns intSize db a = true
  | TaskPC.appending r old =>
    (r.pair = expectedPair intSize db a ∧ returns intSize db a = true) ∧ old = results
  | TaskPC.appended => returns intSize db a = true
  | TaskPC.unlocked => returns intSize db a = true
  | TaskPC.done => returns intSize db a = true
  | TaskPC.panicking p => calculateSeatsSum intSize db a.Code = Except.error p
  | TaskPC.unwound p => calculateSeatsSum intSize db a.Code = Except.error p

/-- The invariant of the fan-out of `calculateHandler` over `aircrafts`. -/
structure Inv (intSize : Nat) (db : Database) (aircrafts : List Aircraft) (s : State) :
    Prop where
  launched : s.tasks.map Task.a ++ s.main.pending = aircrafts
  counter : s.wg = ((s.tasks.filter (fun t => !t.pc.hasEnded)).length : Int) + s.main.added
  holder : ∀ (i : Nat) (t : Task), s.tasks[i]? = some t →
    (t.pc.inCritical = true ↔ s.mu = some i)
  held : ∀ (i : Nat), s.mu = some i → ∃ t : Task, s.tasks[i]? = some t
  pcs : ∀ (i : Nat) (t : Task), s.tasks[i]? = some t →
    t.pc.wellFormed intSize db s.results t.a
  stored : List.Perm (s.results.map Result.pair)
    ((s.tasks.filter (fun t => t.pc.hasAppended)).map (fun t => expectedPair intSize db t.a))
  joined : s.main.pastWait = true → ∀ t ∈ s.tasks, t.pc.hasEnded = true
  shown : ∀ d, s.main = MainPC.rendered d → d.Results = s.results
  died : ∀ p, s.exited = some p →
    ∃ a ∈ aircrafts, calculateSeatsSum intSize db a.Code = Except.error p

/-! ## Theorems -/

/-! ### `strconv.Atoi` -/

theorem le_decimalFrom (ds : List Nat) : ∀ n, n ≤ decimalFrom n ds := by
  induction ds with
  | nil => intro n; simp [decimalFrom]
  | cons c cs ih =>
    intro n
    have h := ih (n * 10 + (c - 48))
    simp only [decimalFrom, List.foldl_cons] at h ⊢
    omega

theorem decimalFrom_cons (n c : Nat) (cs : List Nat) :
    decimalFrom n (c :: cs) = decimalFrom (n * 10 + (c - 48)) cs := rfl

theorem parseUintLoop_digits (maxVal : Nat) (hmax : maxVal ≤ maxUint64) (ds : List Nat) :
    ∀ n, (∀ d ∈ ds, isDigit d) → decimalFrom n ds ≤ maxVal →
      parseUintLoop maxVal ds n = (decimalFrom n ds, none) := by
  induction ds with
  | nil => intro n _ _; simp [parseUintLoop, decimalFrom]
  | cons c cs ih =>
    intro n hd hle
    have hc : 48 ≤ c ∧ c ≤ 57 := hd c (List.mem_cons_self _ _)
    have hcs : ∀ d ∈ cs, isDigit d := fun d hdm => hd d (List.mem_cons_of_mem _ hdm)
    rw [decimalFrom_cons] at hle ⊢
    have h1 := le_decimalFrom cs (n * 10 + (c - 48))
    have hm : maxUint64 = 18446744073709551615 := by decide
    have hlt : n * 10 + (c - 48) ≤ 18446744073709551615 := by omega
    have hmod : (n * 10 + (c - 48)) % 2 ^ 64 = n * 10 + (c - 48) := by
      apply Nat.mod_eq_of_lt; norm_num; omega
    have hn : ¬ (n ≥ maxUint64 / 10 + 1) := by rw [hm]; omega
    have hov : ¬ ((n * 10 + (c - 48)) < n * 10 ∨ (n * 10 + (c - 48)) > maxVal) := by omega
    rw [parseUintLoop]
    simp only [hc, and_self, if_true, hn, if_false, hmod, hov]
    exact ih _ hcs hle


theorem parseUintLoop_none (maxVal : Nat) (ds : List Nat) :
    ∀ n, (parseUintLoop maxVal ds n).2 = none →
      (∀ d ∈ ds, isDigit d) ∧ (parseUintLoop maxVal ds n).1 = decimalFrom n ds ∧
        (ds ≠ [] → decimalFrom n ds ≤ maxVal) := by
  induction ds with
  | nil => intro n _; simp [parseUintLoop, decimalFrom]
  | cons c cs ih =>
    intro n h
    rw [parseUintLoop] at h ⊢
    by_cases hc : 48 ≤ c ∧ c ≤ 57
    · simp only [hc, and_self, if_true] at h ⊢
      by_cases hn : n ≥ maxUint64 / 10 + 1
      · simp [hn] at h
      · simp only [hn, if_false] at h ⊢
        by_cases hov : (n * 10 + (c - 48)) % 2 ^ 64 < n * 10 ∨
            (n * 10 + (c - 48)) % 2 ^ 64 > maxVal
        · rw [if_pos hov] at h
          simp at h
        · rw [if_neg hov] at h ⊢
          have hm : maxUint64 = 18446744073709551615 := by decide
          rw [hm] at hn
          have hmod : (n * 10 + (c - 48)) % 2 ^ 64 = n * 10 + (c - 48) := by
            norm_num at hov ⊢
            omega
          rw [hmod] at h hov ⊢
          obtain ⟨h1, h2, h3⟩ := ih _ h
          refine ⟨?_, ?_, ?_⟩
          · intro d hd
            rcases List.mem_cons.1 hd with rfl | hd
            · exact hc
            · exact h1 d hd
          · rw [h2, decimalFrom_cons]
          · intro _
            rw [decimalFrom_cons]
            by_cases hcs : cs = []
            · subst hcs
              simp only [decimalFrom, List.foldl_nil]
              omega
            · exact h3 hcs
    · simp [hc] at h

theorem parseUintLoop_range (maxVal : Nat) (ds : List Nat) :
    ∀ n, (parseUintLoop maxVal ds n).2 = some NumError.ErrRange →
      (parseUintLoop maxVal ds n).1 = maxVal := by
  induction ds with
  | nil => intro n h; simp [parseUintLoop] at h
  | cons c cs ih =>
    intro n h
    rw [parseUintLoop] at h ⊢
    by_cases hc : 48 ≤ c ∧ c ≤ 57
    · simp only [hc, and_self, if_true] at h ⊢
      by_cases hn : n ≥ maxUint64 / 10 + 1
      · simp [hn]
      · simp only [hn, if_false] at h ⊢
        by_cases hov : (n * 10 + (c - 48)) % 2 ^ 64 < n * 10 ∨
            (n * 10 + (c - 48)) % 2 ^ 64 > maxVal
        · rw [if_pos hov]
        · rw [if_neg hov] at h ⊢
          exact ih _ h
    · simp [hc] at h

theorem ParseUint_of_digits (w : Nat) (hw : w = 32 ∨ w = 64) (s : GoString) (n : Nat)
    (h : digitsValue s = some n) (hn : n ≤ 2 ^ w - 1) : ParseUint w s = (n, none) := by
  unfold digitsValue at h
  split at h
  · rename_i hs
    cases h
    have hmax : 2 ^ w - 1 ≤ maxUint64 := by
      rcases hw with rfl | rfl <;> decide
    cases s with
    | nil => exact absurd rfl hs.1
    | cons c cs =>
      show parseUintLoop (2 ^ w - 1) (c :: cs) 0 = _
      exact parseUintLoop_digits _ hmax _ 0 hs.2 hn
  · cases h

theorem ParseUint_none (w : Nat) (s : GoString) (h : (ParseUint w s).2 = none) :
    digitsValue s = some (ParseUint w s).1 ∧ (ParseUint w s).1 ≤ 2 ^ w - 1 := by
  cases s with
  | nil => simp [ParseUint] at h
  | cons c cs =>
    have h0 : ParseUint w (c :: cs) = parseUintLoop (2 ^ w - 1) (c :: cs) 0 := rfl
    rw [h0] at h ⊢
    obtain ⟨h1, h2, h3⟩ := parseUintLoop_none _ _ 0 h
    have h4 := h3 (List.cons_ne_nil _ _)
    refine ⟨?_, by rw [h2]; exact h4⟩
    rw [h2]
    simp only [digitsValue, decimalValue]
    rw [if_pos ⟨List.cons_ne_nil _ _, h1⟩]

theorem ParseUint_range (w : Nat) (s : GoString)
    (h : (ParseUint w s).2 = some NumError.ErrRange) : (ParseUint w s).1 = 2 ^ w - 1 := by
  cases s with
  | nil => simp [ParseUint] at h
  | cons c cs => exact parseUintLoop_range _ _ 0 h

theorem wrapInt_of_inRange (w : Nat) (hw : w = 32 ∨ w = 64) (v : Int) (h : inRange w v) :
    wrapInt w v = v := by
  unfold inRange at h
  unfold wrapInt
  rcases hw with rfl | rfl <;> norm_num at h ⊢ <;> omega

theorem digitsValue_gt_of_err (w : Nat) (hw : w = 32 ∨ w = 64) (s : GoString)
    (h : (ParseUint w s).2 ≠ none) (n : Nat) (hn : digitsValue s = some n) : 2 ^ w - 1 < n := by
  by_contra hle
  have := ParseUint_of_digits w hw s n hn (by omega)
  rw [this] at h
  exact h rfl

theorem signedValue_cons (c : Nat) (t : GoString) :
    signedValue (c :: t) =
      (digitsValue (if c = 43 ∨ c = 45 then t else c :: t)).map
        (fun (n : Nat) => if c = 45 then -(n : Int) else (n : Int)) := by
  simp only [signedValue]
  by_cases h43 : c = 43
  · subst h43; simp
  · by_cases h45 : c = 45
    · subst h45; simp
    · simp [h43, h45]

theorem ParseInt_cons (w c : Nat) (t : GoString) :
    ParseInt w (c :: t) =
      if (ParseUint w (if c = 43 ∨ c = 45 then t else c :: t)).2 = some NumError.ErrSyntax then
        (0, some NumError.ErrSyntax)
      else if decide (c = 45) = false ∧
          (ParseUint w (if c = 43 ∨ c = 45 then t else c :: t)).1 ≥ 2 ^ (w - 1) then
        (((2 ^ (w - 1) - 1 : Nat) : Int), some NumError.ErrRange)
      else if decide (c = 45) = true ∧
          (ParseUint w (if c = 43 ∨ c = 45 then t else c :: t)).1 > 2 ^ (w - 1) then
        (-((2 ^ (w - 1) : Nat) : Int), some NumError.ErrRange)
      else (if decide (c = 45) = true then
              -((ParseUint w (if c = 43 ∨ c = 45 then t else c :: t)).1 : Int)
            else ((ParseUint w (if c = 43 ∨ c = 45 then t else c :: t)).1 : Int), none) := rfl

theorem Atoi_spec (w : Nat) (hw : w = 32 ∨ w = 64) (p : GoString) :
    (∀ v, parsedValue w p = some v → Atoi w p = (v, none)) ∧
      (parsedValue w p = none → (Atoi w p).2 ≠ none) := by
  cases p with
  | nil => simp [parsedValue, signedValue, Atoi, ParseInt]
  | cons c t =>
    have hsv := signedValue_cons c t
    have hP := ParseInt_cons w c t
    generalize (if c = 43 ∨ c = 45 then t else c :: t) = s1 at hsv hP
    have hnone := ParseUint_none w s1
    have hrange := ParseUint_range w s1
    have herr := digitsValue_gt_of_err w hw s1
    unfold Atoi parsedValue
    rw [hsv]
    simp only [hP]
    rcases hr : ParseUint w s1 with ⟨un, e⟩
    rw [hr] at hnone hrange herr
    simp only at hnone hrange herr ⊢
    cases e with
    | none =>
      obtain ⟨hd, hun⟩ := hnone rfl
      rw [hd]
      clear hP hsv hnone hrange herr hr
      simp only [Option.map_some']
      rcases hw with rfl | rfl <;> by_cases h45 : c = 45 <;>
        simp only [h45, if_true, if_false, decide_True, decide_False, true_and, false_and,
          Bool.true_eq_false, Bool.false_eq_true, reduceCtorEq, inRange, wrapInt] <;>
        norm_num <;> split_ifs with h1 <;>
        refine ⟨fun _ _ => ?_, fun h2 => ?_⟩ <;> simp at * <;> omega
    | some e =>
      have hgt := herr (by simp)
      clear hP hsv hnone herr hr
      have hpv : (match Option.map (fun (n : Nat) => if c = 45 then -(n : Int) else (n : Int))
            (digitsValue s1) with
          | none => none
          | some v => if inRange w v then some v else none) = none := by
        cases hd : digitsValue s1 with
        | none => rfl
        | some n =>
          have hn := hgt n hd
          simp only [Option.map_some']
          have hni : ¬ inRange w (if c = 45 then -(n : Int) else (n : Int)) := by
            unfold inRange
            rcases hw with rfl | rfl <;> by_cases h45 : c = 45 <;>
              simp only [h45, if_true, if_false] <;> norm_num at hn ⊢ <;> omega
          rw [if_neg hni]
      rw [hpv]
      refine ⟨fun v hv => (by cases hv), fun _ => ?_⟩
      cases e with
      | ErrSyntax => simp
      | ErrRange =>
        have hun := hrange rfl
        subst hun
        rcases hw with rfl | rfl <;> by_cases h45 : c = 45 <;> simp [h45]

/-! ### The seat loop -/

theorem wrapInt_inRange (w : Nat) (hw : w = 32 ∨ w = 64) (x : Int) : inRange w (wrapInt w x) := by
  unfold inRange wrapInt
  rcases hw with rfl | rfl <;> norm_num <;> omega

theorem wrapInt_add_left (w : Nat) (x y : Int) :
    wrapInt w (wrapInt w x + y) = wrapInt w (x + y) := by
  unfold wrapInt
  have h : (x + 2 ^ (w - 1)) % 2 ^ w - 2 ^ (w - 1) + y + 2 ^ (w - 1)
      = (x + 2 ^ (w - 1)) % 2 ^ w + y := by ring
  rw [h, Int.emod_add_emod]
  congr 2
  ring

theorem wrapInt_modEq (w : Nat) (x : Int) : wrapInt w x ≡ x [ZMOD 2 ^ w] := by
  unfold wrapInt
  have h1 : (x + 2 ^ (w - 1)) % 2 ^ w ≡ x + 2 ^ (w - 1) [ZMOD 2 ^ w] := Int.mod_modEq _ _
  have h2 := h1.sub_right (2 ^ (w - 1))
  simpa using h2

theorem wrapInt_congr (w : Nat) (x y : Int) (h : x ≡ y [ZMOD 2 ^ w]) :
    wrapInt w x = wrapInt w y := by
  unfold wrapInt
  have h1 : x + 2 ^ (w - 1) ≡ y + 2 ^ (w - 1) [ZMOD 2 ^ w] := h.add_right _
  rw [h1]

theorem wrapInt_mul_wrapInt (w : Nat) (x y : Int) :
    wrapInt w (wrapInt w x * wrapInt w y) = wrapInt w (x * y) :=
  wrapInt_congr w _ _ ((wrapInt_modEq w x).mul (wrapInt_modEq w y))

theorem sliceTo_last (seat : GoString) (h : seat ≠ []) :
    sliceTo seat ((seat.length : Int) - 1) = Except.ok seat.dropLast := by
  have hl : 0 < seat.length := List.length_pos.2 h
  unfold sliceTo
  rw [if_pos (by omega)]
  have : ((seat.length : Int) - 1).toNat = seat.length - 1 := by omega
  rw [this, List.dropLast_eq_take]

theorem seatStep_some (w : Nat) (sum : Int) (seat : GoString) (h : seat ≠ []) :
    seatStep w sum (some seat) =
      if (Atoi w seat.dropLast).2 = none then
        Except.ok (wrapInt w (sum + (Atoi w seat.dropLast).1))
      else Except.ok sum := by
  simp only [seatStep, sliceTo_last seat h]

theorem contribution_eq_Atoi (w : Nat) (hw : w = 32 ∨ w = 64) (seat : GoString) :
    contribution w (some seat)
      = if (Atoi w seat.dropLast).2 = none then (Atoi w seat.dropLast).1 else 0 := by
  have hA := Atoi_spec w hw seat.dropLast
  simp only [contribution]
  cases hpv : parsedValue w seat.dropLast with
  | none => rw [if_neg (hA.2 hpv)]
  | some v => rw [hA.1 v hpv, if_pos rfl]

theorem seatStep_contribution (w : Nat) (hw : w = 32 ∨ w = 64) (sum : Int)
    (hsum : inRange w sum) (row : Option GoString) (h : row ≠ some []) :
    seatStep w sum row = Except.ok (wrapInt w (sum + contribution w row)) := by
  cases row with
  | none =>
    simp only [seatStep, contribution, add_zero]
    rw [wrapInt_of_inRange w hw sum hsum]
  | some seat =>
    have hne : seat ≠ [] := fun he => h (by rw [he])
    rw [seatStep_some w sum seat hne, contribution_eq_Atoi w hw seat]
    split_ifs
    · rfl
    · rw [add_zero, wrapInt_of_inRange w hw sum hsum]

theorem seatsLoop_sum (w : Nat) (hw : w = 32 ∨ w = 64) (rows : List (Option GoString)) :
    ∀ sum, inRange w sum → (∀ r ∈ rows, r ≠ some []) →
      seatsLoop w rows sum = Except.ok (wrapInt w (sum + (rows.map (contribution w)).sum)) := by
  induction rows with
  | nil =>
    intro sum hsum _
    simp only [seatsLoop, List.map_nil, List.sum_nil, add_zero]
    rw [wrapInt_of_inRange w hw sum hsum]
  | cons row rest ih =>
    intro sum hsum hrows
    have h1 := seatStep_contribution w hw sum hsum row (hrows row (List.mem_cons_self _ _))
    rw [seatsLoop, h1]
    simp only
    rw [ih _ (wrapInt_inRange w hw _) (fun r hr => hrows r (List.mem_cons_of_mem _ hr))]
    rw [wrapInt_add_left, List.map_cons, List.sum_cons, add_assoc]

theorem inRange_zero (w : Nat) (hw : w = 32 ∨ w = 64) : inRange w 0 := by
  unfold inRange
  rcases hw with rfl | rfl <;> norm_num

theorem parsedValue_digits (w : Nat) (ds : GoString) (hne : ds ≠ [])
    (hds : ∀ d ∈ ds, isDigit d) (hfit : (decimalValue ds : Int) < 2 ^ (w - 1)) :
    parsedValue w ds = some (decimalValue ds : Int) := by
  cases ds with
  | nil => exact absurd rfl hne
  | cons d t =>
    have hd : 48 ≤ d ∧ d ≤ 57 := hds d (List.mem_cons_self _ _)
    have h43 : d ≠ 43 := by omega
    have h45 : d ≠ 45 := by omega
    have hdv : digitsValue (d :: t) = some (decimalValue (d :: t)) := by
      unfold digitsValue
      rw [if_pos ⟨hne, hds⟩]
    have hin : inRange w (decimalValue (d :: t) : Int) := by
      refine ⟨?_, hfit⟩
      have h1 : (0 : Int) ≤ (decimalValue (d :: t) : Int) := Int.ofNat_nonneg _
      have h2 : (0 : Int) ≤ 2 ^ (w - 1) := by positivity
      omega
    simp only [parsedValue, signedValue, if_neg h43, if_neg h45, hdv, Option.map_some']
    rw [if_pos hin]

theorem parseUintLoop_not_syntax (maxVal : Nat) (ds : List Nat) :
    ∀ n, (∀ d ∈ ds, isDigit d) → (parseUintLoop maxVal ds n).2 ≠ some NumError.ErrSyntax := by
  induction ds with
  | nil => intro n _; simp [parseUintLoop]
  | cons c cs ih =>
    intro n hd
    have hc : 48 ≤ c ∧ c ≤ 57 := hd c (List.mem_cons_self _ _)
    have hcs : ∀ d ∈ cs, isDigit d := fun d hdm => hd d (List.mem_cons_of_mem _ hdm)
    rw [parseUintLoop, if_pos hc]
    by_cases hn : n ≥ maxUint64 / 10 + 1
    · rw [if_pos hn]
      simp
    · rw [if_neg hn]
      by_cases hov : (n * 10 + (c - 48)) % 2 ^ 64 < n * 10 ∨
          (n * 10 + (c - 48)) % 2 ^ 64 > maxVal
      · simp only
        rw [if_pos hov]
        simp
      · simp only
        rw [if_neg hov]
        exact ih _ hcs

theorem Atoi_digits_not_syntax (w : Nat) (ds : GoString) (hne : ds ≠ [])
    (hds : ∀ d ∈ ds, isDigit d) : (Atoi w ds).2 ≠ some NumError.ErrSyntax := by
  cases ds with
  | nil => exact absurd rfl hne
  | cons d t =>
    have hd : 48 ≤ d ∧ d ≤ 57 := hds d (List.mem_cons_self _ _)
    have hsign : ¬ (d = 43 ∨ d = 45) := by omega
    have hU : (ParseUint w (d :: t)).2 ≠ some NumError.ErrSyntax :=
      parseUintLoop_not_syntax _ (d :: t) 0 hds
    show (ParseInt w (d :: t)).2 ≠ some NumError.ErrSyntax
    rw [ParseInt_cons, if_neg hsign, if_neg hU]
    split_ifs <;> simp

theorem parsedValue_digits_large (w : Nat) (ds : GoString) (hne : ds ≠ [])
    (hds : ∀ d ∈ ds, isDigit d) (hbig : (2 : Int) ^ (w - 1) ≤ (decimalValue ds : Int)) :
    parsedValue w ds = none := by
  cases ds with
  | nil => exact absurd rfl hne
  | cons d t =>
    have hd : 48 ≤ d ∧ d ≤ 57 := hds d (List.mem_cons_self _ _)
    have h43 : d ≠ 43 := by omega
    have h45 : d ≠ 45 := by omega
    have hdv : digitsValue (d :: t) = some (decimalValue (d :: t)) := by
      unfold digitsValue
      rw [if_pos ⟨hne, hds⟩]
    have hin : ¬ inRange w (decimalValue (d :: t) : Int) := by
      intro h
      have := h.2
      omega
    simp only [parsedValue, signedValue, if_neg h43, if_neg h45, hdv, Option.map_some']
    rw [if_neg hin]

theorem parsedValue_digits_then_other (w : Nat) (ds bs : GoString) (hne : ds ≠ [])
    (hds : ∀ d ∈ ds, isDigit d) (hbs : ∃ b ∈ bs, ¬ isDigit b) :
    parsedValue w (ds ++ bs) = none := by
  cases ds with
  | nil => exact absurd rfl hne
  | cons d t =>
    have hd : 48 ≤ d ∧ d ≤ 57 := hds d (List.mem_cons_self _ _)
    have h43 : d ≠ 43 := by omega
    have h45 : d ≠ 45 := by omega
    obtain ⟨b, hb, hnb⟩ := hbs
    have hdv : digitsValue (d :: t ++ bs) = none := by
      unfold digitsValue
      rw [if_neg]
      intro h
      exact hnb (h.2 b (List.mem_append_right _ hb))
    simp only [parsedValue, List.cons_append, signedValue, if_neg h43, if_neg h45]
    rw [← List.cons_append, hdv]
    rfl

/-- C1, amended. Take a seat identifier made of one or more decimal digits
followed by exactly one byte, such as a single ASCII letter.  When the integer
value of the digits fits a Go `int` (it is below `2^(intSize-1)`), `Atoi` reads
that value from the seat without its last byte and the step of the loop
replaces `sum` by `sum + value` in `int` arithmetic.  When it does not, `Atoi`
reports a range error and the step leaves `sum` as it is.  And when the digits
are followed by more than one byte, as with a letter whose encoding takes
several bytes, and a byte before the last is not a digit, the step leaves
`sum` as it is: only the last byte is dropped. -/
theorem seatStep_adds_digits_value (w : Nat) (hw : w = 32 ∨ w = 64) (sum : Int)
    (ds : GoString) (c : Nat) (hne : ds ≠ []) (hds : ∀ d ∈ ds, isDigit d) :
    ((decimalValue ds : Int) < 2 ^ (w - 1) →
        Atoi w ds = ((decimalValue ds : Int), none) ∧
        seatStep w sum (some (ds ++ [c]))
          = Except.ok (wrapInt w (sum + (decimalValue ds : Int))) ∧
        contribution w (some (ds ++ [c])) = (decimalValue ds : Int)) ∧
      ((2 : Int) ^ (w - 1) ≤ (decimalValue ds : Int) →
        (Atoi w ds).2 = some NumError.ErrRange ∧
        seatStep w sum (some (ds ++ [c])) = Except.ok sum ∧
        contribution w (some (ds ++ [c])) = 0) ∧
      (∀ bs : GoString, (∃ b ∈ bs, ¬ isDigit b) →
        seatStep w sum (some (ds ++ bs ++ [c])) = Except.ok sum ∧
        contribution w (some (ds ++ bs ++ [c])) = 0) := by
  have hne2 : ds ++ [c] ≠ [] := by simp
  refine ⟨?_, ?_, ?_⟩
  · intro hfit
    have hpv := parsedValue_digits w ds hne hds hfit
    have hA := (Atoi_spec w hw ds).1 _ hpv
    refine ⟨hA, ?_, ?_⟩
    · rw [seatStep_some w sum _ hne2, List.dropLast_concat, hA]
      simp
    · simp only [contribution, List.dropLast_concat, hpv]
  · intro hbig
    have hpv := parsedValue_digits_large w ds hne hds hbig
    have hA := (Atoi_spec w hw ds).2 hpv
    refine ⟨?_, ?_, ?_⟩
    · have hS := Atoi_digits_not_syntax w ds hne hds
      cases he : (Atoi w ds).2 with
      | none => exact absurd he hA
      | some e =>
        cases e with
        | ErrSyntax => exact absurd he hS
        | ErrRange => rfl
    · rw [seatStep_some w sum _ hne2, List.dropLast_concat, if_neg hA]
    · simp only [contribution, List.dropLast_concat, hpv]
  · intro bs hbs
    have hpv := parsedValue_digits_then_other w ds bs hne hds hbs
    have hA := (Atoi_spec w hw (ds ++ bs)).2 hpv
    have hne3 : ds ++ bs ++ [c] ≠ [] := by simp
    refine ⟨?_, ?_⟩
    · rw [seatStep_some w sum _ hne3, List.dropLast_concat, if_neg hA]
    · simp only [contribution, List.dropLast_concat, hpv]

/-- Witness of `seatStep_adds_digits_value` on a 64-bit platform, from the
running sum 0: the seat `"12A"`, whose digits fit; the seat
`"99999999999999999999A"`, whose digits do not; and the seat `"12Б"`, whose
letter takes the two bytes 208 and 145. -/
theorem seatStep_adds_digits_value_witness :
    (64 = 32 ∨ 64 = 64) ∧ goString "12" ≠ [] ∧ (∀ d ∈ goString "12", isDigit d) ∧
      ((decimalValue (goString "12") : Int) < 2 ^ (64 - 1)) ∧
      (Atoi 64 (goString "12") = ((decimalValue (goString "12") : Int), none) ∧
        seatStep 64 0 (some (goString "12" ++ [65])) =
          Except.ok (wrapInt 64 (0 + (decimalValue (goString "12") : Int))) ∧
        contribution 64 (some (goString "12" ++ [65])) = (decimalValue (goString "12") : Int)) ∧
      ((2 : Int) ^ (64 - 1) ≤ (decimalValue (goString "99999999999999999999") : Int)) ∧
      ((Atoi 64 (goString "99999999999999999999")).2 = some NumError.ErrRange ∧
        seatStep 64 0 (some (goString "99999999999999999999" ++ [65])) = Except.ok 0 ∧
        contribution 64 (some (goString "99999999999999999999" ++ [65])) = 0) ∧
      (∃ b ∈ [208], ¬ isDigit b) ∧
      (seatStep 64 0 (some (goString "12" ++ [208] ++ [145])) = Except.ok 0 ∧
        contribution 64 (some (goString "12" ++ [208] ++ [145])) = 0) :=
  ⟨Or.inr rfl, by decide, by decide, by decide,
    (seatStep_adds_digits_value 64 (Or.inr rfl) 0 (goString "12") 65 (by decide)
      (by decide)).1 (by decide),
    by decide,
    (seatStep_adds_digits_value 64 (Or.inr rfl) 0 (goString "99999999999999999999") 65
      (by decide) (by decide)).2.1 (by decide),
    by decide,
    (seatStep_adds_digits_value 64 (Or.inr rfl) 0 (goString "12") 145 (by decide)
      (by decide)).2.2 [208] (by decide)⟩

/-- C1 as stated fails: the seat `"99999999999999999999A"` is twenty decimal
digits followed by one letter, the integer value of its digits is
99999999999999999999, and yet the step of the loop leaves the running sum 0
unchanged, on 64-bit and on 32-bit platforms alike (`Atoi` reports a range
error, so nothing is added).  It fails as well on `"12Б"`, two digits followed
by the one letter `Б`: the letter is encoded in the two bytes 208 and 145, only
the last of which is dropped, and the step leaves the running sum 0
unchanged. -/
theorem seatStep_digits_overflow_counterexample :
    seatForm (goString "99999999999999999999A") ∧
      decimalValue (goString "99999999999999999999A").dropLast = 99999999999999999999 ∧
      seatStep 64 0 (some (goString "99999999999999999999A")) = Except.ok 0 ∧
      seatStep 32 0 (some (goString "99999999999999999999A")) = Except.ok 0 ∧
      wrapInt 64 (0 + 99999999999999999999) ≠ 0 ∧
      (Atoi 64 (goString "99999999999999999999")).2 = some NumError.ErrRange ∧
      "12Б".toList.length = 3 ∧
      goString "12Б" = [49, 50, 208, 145] ∧
      seatStep 64 0 (some (goString "12Б")) = Except.ok 0 ∧
      seatStep 32 0 (some (goString "12Б")) = Except.ok 0 := by
  decide

/-- C2, amended. A non-empty seat identifier whose text before the last byte
is not an optionally signed decimal numeral that fits a Go `int` adds nothing
to the running sum; and when no scanned seat is the empty string, the loop
returns what it returns on the rows that do parse alone. -/
theorem seatStep_unparsable_adds_nothing (w : Nat) (hw : w = 32 ∨ w = 64) (sum : Int)
    (seat : GoString) (rows : List (Option GoString)) (hne : seat ≠ [])
    (hbad : parsedValue w seat.dropLast = none) (hrows : ∀ r ∈ rows, r ≠ some []) :
    seatStep w sum (some seat) = Except.ok sum ∧ contribution w (some seat) = 0 ∧
      seatsLoop w rows sum = seatsLoop w (rows.filter (parses w)) sum := by
  have hA := (Atoi_spec w hw seat.dropLast).2 hbad
  refine ⟨?_, ?_, ?_⟩
  · rw [seatStep_some w sum seat hne, if_neg hA]
  · simp only [contribution, hbad]
  · clear hA hbad hne
    induction rows generalizing sum with
    | nil => rfl
    | cons row rest ih =>
      have hrest : ∀ r ∈ rest, r ≠ some [] := fun r hr => hrows r (List.mem_cons_of_mem _ hr)
      cases row with
      | none =>
        have hp : parses w none = false := rfl
        rw [List.filter_cons_of_neg (by simp [hp])]
        simp only [seatsLoop, seatStep]
        exact ih sum hrest
      | some s =>
        have hs : s ≠ [] := fun he => hrows (some s) (List.mem_cons_self _ _) (by rw [he])
        cases hpv : parsedValue w s.dropLast with
        | none =>
          have hp : parses w (some s) = false := by simp [parses, hpv]
          have hA := (Atoi_spec w hw s.dropLast).2 hpv
          rw [List.filter_cons_of_neg (by simp [hp])]
          rw [seatsLoop, seatStep_some w sum s hs, if_neg hA]
          exact ih sum hrest
        | some v =>
          have hp : parses w (some s) = true := by simp [parses, hpv]
          rw [List.filter_cons_of_pos hp]
          rw [seatsLoop, seatsLoop]
          cases seatStep w sum (some s) with
          | error p => rfl
          | ok sum1 => exact ih sum1 hrest

/-- Witness of `seatStep_unparsable_adds_nothing`: the seat `"A1A"` and the
rows `"1A"`, `"A1A"`, `"2B"` on a 64-bit platform. -/
theorem seatStep_unparsable_adds_nothing_witness :
    (64 = 32 ∨ 64 = 64) ∧ goString "A1A" ≠ [] ∧
      parsedValue 64 (goString "A1A").dropLast = none ∧
      (∀ r ∈ [some (goString "1A"), some (goString "A1A"), some (goString "2B")],
        r ≠ some []) ∧
      (seatStep 64 0 (some (goString "A1A")) = Except.ok 0 ∧
        contribution 64 (some (goString "A1A")) = 0 ∧
        seatsLoop 64 [some (goString "1A"), some (goString "A1A"), some (goString "2B")] 0 =
          seatsLoop 64
            ([some (goString "1A"), some (goString "A1A"), some (goString "2B")].filter
              (parses 64)) 0) :=
  ⟨Or.inr rfl, by decide, by decide, by decide,
    seatStep_unparsable_adds_nothing 64 (Or.inr rfl) 0 (goString "A1A")
      [some (goString "1A"), some (goString "A1A"), some (goString "2B")]
      (by decide) (by decide) (by decide)⟩

/-- C2 as stated fails: `"-5A"`, `"+7A"` and `"12"` are not of the form
`<digits><single-letter>`, and yet from the running sum 0 the step of the loop
gives -5, 7 and 1: `Atoi` accepts a sign, and the last byte is dropped whatever
it is. -/
theorem seatStep_malformed_counterexample :
    ¬ seatForm (goString "-5A") ∧ seatStep 64 0 (some (goString "-5A")) = Except.ok (-5) ∧
      ¬ seatForm (goString "+7A") ∧ seatStep 64 0 (some (goString "+7A")) = Except.ok 7 ∧
      ¬ seatForm (goString "12") ∧ seatStep 64 0 (some (goString "12")) = Except.ok 1 := by
  decide

/-- C3 fails on the code: when the seat query yields a row that scans to the
empty string, `seat[:len(seat)-1]` is `seat[:-1]`, the loop panics with a
slice-bounds error at that row whatever the rows after it, `calculateSeatsSum`
returns no sum, and the panic, once it has unwound the goroutine, ends the
process before `calculateHandler` renders anything. -/
theorem calculateSeatsSum_empty_seat_panics (w : Nat) (sum : Int)
    (rest : List (Option GoString)) (code : GoString) (elapsed : Int) :
    seatStep w sum (some (goString "")) = Except.error Panic.sliceBoundsOutOfRange ∧
      seatsLoop w (some (goString "") :: rest) sum = Except.error Panic.sliceBoundsOutOfRange ∧
      calculateSeatsSum w (fleetDb [code] (fun _ => Except.ok (some (goString "") :: rest))) code
        = Except.error Panic.sliceBoundsOutOfRange ∧
      calculateHandler w (fleetDb [code] (fun _ => Except.ok (some (goString "") :: rest)))
          [Choice.main, Choice.main, Choice.task 0 elapsed, Choice.task 0 elapsed,
            Choice.task 0 elapsed]
        = CalcRun.crashed Panic.sliceBoundsOutOfRange := by
  have h1 : seatStep w sum (some (goString "")) = Except.error Panic.sliceBoundsOutOfRange := rfl
  have h2 : seatsLoop w (some (goString "") :: rest) 0
      = Except.error Panic.sliceBoundsOutOfRange := rfl
  refine ⟨h1, rfl, h2, ?_⟩
  simp [calculateHandler, fleetDb, scanLoop, run, step, fanOutInit, stepMain, stepTask,
    taskResult, calculateSeatsSum, h2]

/-- C4, amended. For an aircraft whose seat query succeeds with rows none of
which scans to the empty string, the goroutine builds the `Result` of that
aircraft with `Square` equal to the square of the sum of the per-seat
contributions reduced to the range of a Go `int` (two's-complement wrap-around),
which is the exact square whenever the sum and its square fit an `int`.  With
zero rows the square is 0, and the seats `"1A"`, `"1B"`, `"2A"` of aircraft
`"320"` give `Result{AircraftCode: "320", Square: 16}`. -/
theorem taskResult_square (w : Nat) (hw : w = 32 ∨ w = 64) (db : Database) (a : Aircraft)
    (elapsed : Int) (rows : List (Option GoString)) (hq : db.seats a.Code = Except.ok rows)
    (hrows : ∀ r ∈ rows, r ≠ some []) :
    calculateSeatsSum w db a.Code = Except.ok (wrapInt w (rows.map (contribution w)).sum) ∧
      taskResult w db a elapsed = Except.ok
        { AircraftCode := a.Code,
          Square := wrapInt w ((rows.map (contribution w)).sum * (rows.map (contribution w)).sum),
          TimeTaken := elapsed } ∧
      (inRange w (rows.map (contribution w)).sum →
        inRange w ((rows.map (contribution w)).sum * (rows.map (contribution w)).sum) →
        taskResult w db a elapsed = Except.ok
          { AircraftCode := a.Code,
            Square := (rows.map (contribution w)).sum * (rows.map (contribution w)).sum,
            TimeTaken := elapsed }) ∧
      (rows = [] → taskResult w db a elapsed = Except.ok
          { AircraftCode := a.Code, Square := 0, TimeTaken := elapsed }) ∧
      taskResult w
          (fleetDb [goString "320"] (fun _ => Except.ok
            [some (goString "1A"), some (goString "1B"), some (goString "2A")]))
          { Code := goString "320" } elapsed
        = Except.ok { AircraftCode := goString "320", Square := 16, TimeTaken := elapsed } := by
  have hsum : calculateSeatsSum w db a.Code
      = Except.ok (wrapInt w (rows.map (contribution w)).sum) := by
    simp only [calculateSeatsSum, hq]
    rw [seatsLoop_sum w hw rows 0 (inRange_zero w hw) hrows, zero_add]
  have hres : taskResult w db a elapsed = Except.ok
      { AircraftCode := a.Code,
        Square := wrapInt w ((rows.map (contribution w)).sum * (rows.map (contribution w)).sum),
        TimeTaken := elapsed } := by
    simp only [taskResult, hsum]
    rw [wrapInt_mul_wrapInt]
  refine ⟨hsum, hres, ?_, ?_, ?_⟩
  · intro _ h2
    rw [hres, wrapInt_of_inRange w hw _ h2]
  · intro hnil
    subst hnil
    rw [hres]
    simp only [List.map_nil, List.sum_nil, mul_zero]
    rw [wrapInt_of_inRange w hw 0 (inRange_zero w hw)]
  · rcases hw with rfl | rfl <;> rfl

/-- Witness of `taskResult_square`: aircraft `"320"` with the seats `"1A"`,
`"1B"`, `"2A"` on a 64-bit platform. -/
theorem taskResult_square_witness :
    (64 = 32 ∨ 64 = 64) ∧
      (fleetDb [goString "320"] (fun _ => Except.ok
          [some (goString "1A"), some (goString "1B"), some (goString "2A")])).seats
          (goString "320")
        = Except.ok [some (goString "1A"), some (goString "1B"), some (goString "2A")] ∧
      (∀ r ∈ [some (goString "1A"), some (goString "1B"), some (goString "2A")],
        r ≠ some []) ∧
      taskResult 64
          (fleetDb [goString "320"] (fun _ => Except.ok
            [some (goString "1A"), some (goString "1B"), some (goString "2A")]))
          { Code := goString "320" } 7
        = Except.ok { AircraftCode := goString "320", Square := 16, TimeTaken := 7 } :=
  ⟨Or.inr rfl, rfl, by decide,
    (taskResult_square 64 (Or.inr rfl)
      (fleetDb [goString "320"] (fun _ => Except.ok
        [some (goString "1A"), some (goString "1B"), some (goString "2A")]))
      { Code := goString "320" } 7
      [some (goString "1A"), some (goString "1B"), some (goString "2A")] rfl
      (by decide)).2.2.2.2⟩

/-- C4 as stated fails: on a 64-bit platform, aircraft `"320"` with the single
seat `"4000000000A"` has the sum of contributions 4000000000, whose square is
16000000000000000000, and the `Result` built has `Square` equal to
-2446744073709551616, since `sum * sum` overflows `int` and wraps around. -/
theorem taskResult_square_overflow_counterexample :
    (fleetDb [goString "320"] (fun _ => Except.ok [some (goString "4000000000A")])).seats
        (goString "320") = Except.ok [some (goString "4000000000A")] ∧
      ([some (goString "4000000000A")].map (contribution 64)).sum = 4000000000 ∧
      taskResult 64
          (fleetDb [goString "320"] (fun _ => Except.ok [some (goString "4000000000A")]))
          { Code := goString "320" } 0
        = Except.ok { AircraftCode := goString "320", Square := -2446744073709551616,
                      TimeTaken := 0 } ∧
      (4000000000 : Int) * 4000000000 ≠ -2446744073709551616 := by
  decide

/-! ### The fan-out -/

theorem set_decomp {α : Type} (l : List α) (i : Nat) (t t' : α) (h : l[i]? = some t) :
    ∃ l1 l2, l = l1 ++ t :: l2 ∧ l.set i t' = l1 ++ t' :: l2 := by
  obtain ⟨hi, ht⟩ := List.getElem?_eq_some.1 h
  refine ⟨l.take i, l.drop (i + 1), ?_, ?_⟩
  · rw [← ht, List.getElem_cons_drop, List.take_append_drop]
  · rw [List.set_eq_take_append_cons_drop, if_pos hi]

theorem getElem?_set_cases {α : Type} (l : List α) (i j : Nat) (t' tj : α)
    (h : (l.set i t')[j]? = some tj) : (j = i ∧ tj = t') ∨ (j ≠ i ∧ l[j]? = some tj) := by
  rw [List.getElem?_set] at h
  by_cases hij : i = j
  · subst hij
    rw [if_pos rfl] at h
    split at h
    · left; exact ⟨rfl, (Option.some.inj h).symm⟩
    · cases h
  · rw [if_neg hij] at h
    right; exact ⟨fun e => hij e.symm, h⟩

theorem map_a_set (l : List Task) (i : Nat) (t : Task) (pc : TaskPC) (h : l[i]? = some t) :
    (l.set i { a := t.a, pc := pc }).map Task.a = l.map Task.a := by
  obtain ⟨l1, l2, h1, h2⟩ := set_decomp l i t { a := t.a, pc := pc } h
  rw [h2, h1]
  simp

theorem filter_length_set (p : Task → Bool) (l : List Task) (i : Nat) (t t' : Task)
    (h : l[i]? = some t) :
    ((l.set i t').filter p).length + (if p t then 1 else 0)
      = (l.filter p).length + (if p t' then 1 else 0) := by
  obtain ⟨l1, l2, h1, h2⟩ := set_decomp l i t t' h
  rw [h2, h1]
  simp only [List.filter_append, List.length_append, List.filter_cons]
  cases p t <;> cases p t' <;> simp <;> omega

theorem stored_set_same (f : Task → GoString × Int) (p : Task → Bool) (l : List Task) (i : Nat)
    (t t' : Task) (h : l[i]? = some t) (hp : p t' = p t) (hf : f t' = f t) :
    ((l.set i t').filter p).map f = (l.filter p).map f := by
  obtain ⟨l1, l2, h1, h2⟩ := set_decomp l i t t' h
  rw [h2, h1]
  simp only [List.filter_append, List.map_append, List.filter_cons, hp]
  cases p t <;> simp [hf]

theorem stored_set_new (f : Task → GoString × Int) (p : Task → Bool) (l : List Task) (i : Nat)
    (t t' : Task) (h : l[i]? = some t) (hp : p t = false) (hp' : p t' = true) :
    List.Perm ((l.filter p).map f ++ [f t']) (((l.set i t').filter p).map f) := by
  obtain ⟨l1, l2, h1, h2⟩ := set_decomp l i t t' h
  rw [h2, h1]
  simp only [List.filter_append, List.map_append, List.filter_cons, hp, hp', if_true,
    List.map_cons, List.append_assoc]
  simp only [Bool.false_eq_true, if_false]
  refine List.Perm.append_left _ ?_
  exact (List.perm_append_comm).trans (by simp)

theorem wellFormed_results (w : Nat) (db : Database) (r1 r2 : List Result) (a : Aircraft)
    (pc : TaskPC) (hc : pc.inCritical = false) (h : pc.wellFormed w db r1 a) :
    pc.wellFormed w db r2 a := by
  cases pc <;> simp_all [TaskPC.wellFormed, TaskPC.inCritical]

theorem Inv_init (w : Nat) (db : Database) (aircrafts : List Aircraft) :
    Inv w db aircrafts (fanOutInit aircrafts) := by
  constructor <;> simp [fanOutInit, MainPC.pending, MainPC.added, MainPC.pastWait]

theorem Inv_stepMain (w : Nat) (db : Database) (aircrafts : List Aircraft) (s s1 : State)
    (hI : Inv w db aircrafts s) (h : stepMain s = some s1) : Inv w db aircrafts s1 := by
  obtain ⟨h1, h2, h3, h4, h5, h6, h7, h8, h9⟩ := hI
  unfold stepMain at h
  split at h
  · -- wg.Add(1)
    rename_i a rest hm
    cases h
    rw [hm] at h1 h2
    refine ⟨h1, ?_, h3, h4, h5, h6, ?_, ?_, h9⟩
    · show s.wg + 1 = ((s.tasks.filter (fun t => !t.pc.hasEnded)).length : Int) + 1
      simp only [MainPC.added] at h2
      omega
    · intro hp; simp [MainPC.pastWait] at hp
    · intro d hd; cases hd
  · -- the go statement
    rename_i a rest hm
    cases h
    rw [hm] at h1 h2
    have hlen : ∀ (i : Nat) (t : Task),
        (s.tasks ++ [{ a := a, pc := TaskPC.start }])[i]? = some t →
        s.tasks[i]? = some t ∨ (i = s.tasks.length ∧ t = { a := a, pc := TaskPC.start }) := by
      intro i t hit
      rw [List.getElem?_append] at hit
      split at hit
      · exact Or.inl hit
      · right
        have hi : i - s.tasks.length = 0 := by
          by_contra hne
          obtain ⟨k, hk⟩ := Nat.exists_eq_succ_of_ne_zero hne
          rw [hk] at hit
          simp at hit
        rw [hi] at hit
        simp at hit
        exact ⟨by omega, hit.symm⟩
    have hmu : s.mu ≠ some s.tasks.length := by
      intro hmu
      obtain ⟨t, ht⟩ := h4 _ hmu
      have := (List.getElem?_eq_some.1 ht).1
      omega
    refine ⟨?_, ?_, ?_, ?_, ?_, ?_, ?_, ?_, h9⟩
    · show (s.tasks ++ [Task.mk a TaskPC.start]).map Task.a ++ rest = aircrafts
      simpa [MainPC.pending] using h1
    · show s.wg = (((s.tasks ++ [Task.mk a TaskPC.start]).filter
        (fun t => !t.pc.hasEnded)).length : Int) + 0
      simp only [MainPC.added] at h2
      simp [List.filter_append, TaskPC.hasEnded, h2]
    · intro i t hit
      rcases hlen i t hit with h0 | ⟨hi, ht⟩
      · exact h3 i t h0
      · subst hi ht
        constructor
        · intro hc; simp [TaskPC.inCritical] at hc
        · intro hc; exact absurd hc hmu
    · intro i hi
      obtain ⟨t, ht⟩ := h4 i hi
      refine ⟨t, ?_⟩
      show (s.tasks ++ [Task.mk a TaskPC.start])[i]? = some t
      rw [List.getElem?_append_left (List.getElem?_eq_some.1 ht).1]
      exact ht
    · intro i t hit
      rcases hlen i t hit with h0 | ⟨hi, ht⟩
      · exact h5 i t h0
      · subst ht
        simp [TaskPC.wellFormed]
    · show List.Perm _ (((s.tasks ++ [Task.mk a TaskPC.start]).filter
        (fun t => t.pc.hasAppended)).map _)
      simpa [List.filter_append, TaskPC.hasAppended] using h6
    · intro hp; simp [MainPC.pastWait] at hp
    · intro d hd; cases hd
  · -- wg.Wait()
    rename_i hm
    split at h
    · rename_i hwg
      cases h
      rw [hm] at h1 h2
      refine ⟨h1, ?_, h3, h4, h5, h6, ?_, ?_, h9⟩
      · exact h2
      · intro _ t ht
        simp only [MainPC.added, add_zero] at h2
        rw [hwg] at h2
        have h0 : (s.tasks.filter (fun t => !t.pc.hasEnded)).length = 0 := by omega
        have hnil := List.length_eq_zero.1 h0
        have := List.filter_eq_nil_iff.1 hnil t ht
        simpa using this
      · intro d hd; cases hd
    · cases h
  · -- the rendering
    rename_i hm
    cases h
    rw [hm] at h1 h2 h7
    refine ⟨h1, h2, h3, h4, h5, h6, ?_, ?_, h9⟩
    · intro _; exact h7 rfl
    · intro d hd
      cases hd
      rfl
  · cases h

theorem mem_aircrafts_of_task (w : Nat) (db : Database) (aircrafts : List Aircraft) (s : State)
    (hI : Inv w db aircrafts s) (i : Nat) (t : Task) (ht : s.tasks[i]? = some t) :
    t.a ∈ aircrafts := by
  rw [← hI.launched]
  apply List.mem_append_left
  exact List.mem_map.2 ⟨t, List.mem_iff_getElem?.2 ⟨i, ht⟩, rfl⟩

theorem Inv_update (w : Nat) (db : Database) (aircrafts : List Aircraft) (s : State)
    (hI : Inv w db aircrafts s) (i : Nat) (t : Task) (ht : s.tasks[i]? = some t)
    (pc' : TaskPC) (wg' : Int) (mu' : Option Nat) (results' : List Result)
    (hnd : t.pc.hasEnded = false)
    (hwg : wg' + 1 = s.wg + (if pc'.hasEnded then 0 else 1))
    (hmu : pc'.inCritical = true ↔ mu' = some i)
    (hmu2 : ∀ j, j ≠ i → (mu' = some j ↔ s.mu = some j))
    (hwf : pc'.wellFormed w db results' t.a)
    (hres : results' = s.results ∨ s.mu = some i)
    (hst : (pc'.hasAppended = t.pc.hasAppended ∧ results' = s.results) ∨
      (t.pc.hasAppended = false ∧ pc'.hasAppended = true ∧
        ∃ r : Result, results' = s.results ++ [r] ∧ r.pair = expectedPair w db t.a)) :
    Inv w db aircrafts
      { main := s.main, tasks := s.tasks.set i { a := t.a, pc := pc' }, wg := wg', mu := mu',
        results := results', exited := s.exited } := by
  have hlt : i < s.tasks.length := (List.getElem?_eq_some.1 ht).1
  have hmem : t ∈ s.tasks := List.mem_iff_getElem?.2 ⟨i, ht⟩
  have hnotpast : s.main.pastWait = true → False := by
    intro hp
    have := hI.joined hp t hmem
    rw [this] at hnd
    cases hnd
  refine ⟨?_, ?_, ?_, ?_, ?_, ?_, ?_, ?_, hI.died⟩
  · show (s.tasks.set i (Task.mk t.a pc')).map Task.a ++ s.main.pending = aircrafts
    rw [map_a_set s.tasks i t pc' ht]
    exact hI.launched
  · show wg' = (((s.tasks.set i (Task.mk t.a pc')).filter (fun t => !t.pc.hasEnded)).length : Int)
      + s.main.added
    have hc := hI.counter
    have hf := filter_length_set (fun t => !t.pc.hasEnded) s.tasks i t (Task.mk t.a pc') ht
    simp only [hnd, Bool.not_false, if_true] at hf
    cases hd : pc'.hasEnded <;> simp only [hd, Bool.not_true, Bool.not_false, if_true,
      Bool.false_eq_true, if_false] at hf hwg <;> omega
  · intro j tj hj
    show tj.pc.inCritical = true ↔ mu' = some j
    rcases getElem?_set_cases _ _ _ _ _ hj with ⟨rfl, rfl⟩ | ⟨hne, hj0⟩
    · exact hmu
    · rw [hmu2 j hne]
      exact hI.holder j tj hj0
  · intro j hj
    show ∃ tj : Task, (s.tasks.set i (Task.mk t.a pc'))[j]? = some tj
    have hj' : mu' = some j := hj
    by_cases hji : j = i
    · subst hji
      exact ⟨_, List.getElem?_set_self hlt⟩
    · obtain ⟨tj, htj⟩ := hI.held j ((hmu2 j hji).1 hj')
      exact ⟨tj, by rw [List.getElem?_set_ne (fun e => hji e.symm)]; exact htj⟩
  · intro j tj hj
    show tj.pc.wellFormed w db results' tj.a
    rcases getElem?_set_cases _ _ _ _ _ hj with ⟨rfl, rfl⟩ | ⟨hne, hj0⟩
    · exact hwf
    · have h0 := hI.pcs j tj hj0
      rcases hres with hres | hres
      · rw [hres]; exact h0
      · have hnc : tj.pc.inCritical = false := by
          cases hc : tj.pc.inCritical
          · rfl
          · have := (hI.holder j tj hj0).1 hc
            rw [hres] at this
            exact absurd (Option.some.inj this).symm hne
        exact wellFormed_results w db _ _ _ _ hnc h0
  · show List.Perm (results'.map Result.pair)
      (((s.tasks.set i (Task.mk t.a pc')).filter (fun t => t.pc.hasAppended)).map
        (fun t => expectedPair w db t.a))
    rcases hst with ⟨hp, hr⟩ | ⟨hp, hp', r, hr, hpair⟩
    · rw [hr, stored_set_same (fun t => expectedPair w db t.a) (fun t => t.pc.hasAppended)
        s.tasks i t (Task.mk t.a pc') ht hp rfl]
      exact hI.stored
    · have h1 := stored_set_new (fun t => expectedPair w db t.a) (fun t => t.pc.hasAppended)
        s.tasks i t (Task.mk t.a pc') ht hp hp'
      refine List.Perm.trans ?_ h1
      rw [hr, List.map_append, List.map_singleton, hpair]
      exact List.Perm.append_right _ hI.stored
  · intro hp
    exact absurd (hnotpast hp) id
  · intro d hd
    have hp : s.main.pastWait = true := by
      have hd' : s.main = MainPC.rendered d := hd
      rw [hd']; rfl
    exact absurd (hnotpast hp) id

theorem taskResult_pair (w : Nat) (db : Database) (a : Aircraft) (elapsed : Int) (r : Result)
    (h : taskResult w db a elapsed = Except.ok r) :
    r.pair = expectedPair w db a ∧ returns w db a = true := by
  unfold taskResult at h
  unfold expectedPair returns
  cases hs : calculateSeatsSum w db a.Code with
  | error p => rw [hs] at h; cases h
  | ok sum =>
    rw [hs] at h
    cases h
    exact ⟨rfl, rfl⟩

theorem taskResult_error (w : Nat) (db : Database) (a : Aircraft) (elapsed : Int) (p : Panic)
    (h : taskResult w db a elapsed = Except.error p) :
    calculateSeatsSum w db a.Code = Except.error p := by
  unfold taskResult at h
  cases hs : calculateSeatsSum w db a.Code with
  | error q => rw [hs] at h; cases h; rfl
  | ok sum => rw [hs] at h; cases h

theorem counter_pos (w : Nat) (db : Database) (aircrafts : List Aircraft) (s : State)
    (hI : Inv w db aircrafts s) (i : Nat) (t : Task) (ht : s.tasks[i]? = some t)
    (hnd : t.pc.hasEnded = false) : ¬ (s.wg - 1 < 0) := by
  have hc := hI.counter
  have hmem : t ∈ s.tasks := List.mem_iff_getElem?.2 ⟨i, ht⟩
  have hin : t ∈ s.tasks.filter (fun t => !t.pc.hasEnded) :=
    List.mem_filter.2 ⟨hmem, by simp [hnd]⟩
  have hpos : 0 < (s.tasks.filter (fun t => !t.pc.hasEnded)).length :=
    List.length_pos_of_mem hin
  have hadd : 0 ≤ s.main.added := by
    cases s.main <;> simp [MainPC.added]
  omega

theorem Inv_stepTask (w : Nat) (db : Database) (aircrafts : List Aircraft) (s s1 : State)
    (hI : Inv w db aircrafts s) (i : Nat) (elapsed : Int)
    (h : stepTask w db s i elapsed = some s1) : Inv w db aircrafts s1 := by
  unfold stepTask at h
  cases ht : s.tasks[i]? with
  | none => rw [ht] at h; cases h
  | some t =>
    rw [ht] at h
    simp only at h
    have hhold := hI.holder i t ht
    have hwf := hI.pcs i t ht
    cases hpc : t.pc with
    | start =>
      rw [hpc] at h hhold
      simp only at h
      have hmu : s.mu ≠ some i := fun hm => by
        have := hhold.2 hm
        simp [TaskPC.inCritical] at this
      cases hr : taskResult w db t.a elapsed with
      | error p =>
        rw [hr] at h
        cases h
        refine Inv_update w db aircrafts s hI i t ht (TaskPC.panicking p) s.wg s.mu s.results
          (by rw [hpc]; rfl) (by simp [TaskPC.hasEnded]) ?_ (fun _ _ => Iff.rfl)
          (taskResult_error w db _ _ _ hr) (Or.inl rfl) (Or.inl ⟨by rw [hpc]; rfl, rfl⟩)
        simp [TaskPC.inCritical, hmu]
      | ok r =>
        rw [hr] at h
        cases h
        refine Inv_update w db aircrafts s hI i t ht (TaskPC.computed r) s.wg s.mu s.results
          (by rw [hpc]; rfl) (by simp [TaskPC.hasEnded]) ?_ (fun _ _ => Iff.rfl)
          (taskResult_pair w db _ _ _ hr) (Or.inl rfl) (Or.inl ⟨by rw [hpc]; rfl, rfl⟩)
        simp [TaskPC.inCritical, hmu]
    | computed r =>
      rw [hpc] at h hhold hwf
      simp only at h
      cases hm : s.mu with
      | some j => rw [hm] at h; cases h
      | none =>
        rw [hm] at h
        cases h
        refine Inv_update w db aircrafts s hI i t ht (TaskPC.locked r) s.wg (some i) s.results
          (by rw [hpc]; rfl) (by simp [TaskPC.hasEnded]) (by simp [TaskPC.inCritical]) ?_
          hwf (Or.inl rfl) (Or.inl ⟨by rw [hpc]; rfl, rfl⟩)
        intro j hj
        rw [hm]
        constructor
        · intro he; exact absurd (Option.some.inj he).symm hj
        · intro he; cases he
    | locked r =>
      rw [hpc] at h hhold hwf
      cases h
      have hmu : s.mu = some i := hhold.1 rfl
      exact Inv_update w db aircrafts s hI i t ht (TaskPC.appending r s.results) s.wg s.mu
        s.results (by rw [hpc]; rfl) (by simp [TaskPC.hasEnded])
        (by simp [TaskPC.inCritical, hmu]) (fun _ _ => Iff.rfl)
        ⟨hwf, rfl⟩ (Or.inl rfl) (Or.inl ⟨by rw [hpc]; rfl, rfl⟩)
    | appending r old =>
      rw [hpc] at h hhold hwf
      cases h
      have hmu : s.mu = some i := hhold.1 rfl
      obtain ⟨⟨hpair, hret⟩, hold⟩ := hwf
      exact Inv_update w db aircrafts s hI i t ht TaskPC.appended s.wg s.mu
        (old ++ [r]) (by rw [hpc]; rfl) (by simp [TaskPC.hasEnded])
        (by simp [TaskPC.inCritical, hmu]) (fun _ _ => Iff.rfl)
        hret (Or.inr hmu)
        (Or.inr ⟨by rw [hpc]; rfl, rfl, r, by rw [hold], hpair⟩)
    | appended =>
      rw [hpc] at h hhold hwf
      simp only at h
      have hmu : s.mu = some i := hhold.1 rfl
      rw [hmu] at h
      cases h
      refine Inv_update w db aircrafts s hI i t ht TaskPC.unlocked s.wg none
        s.results (by rw [hpc]; rfl) (by simp [TaskPC.hasEnded])
        (by simp [TaskPC.inCritical]) ?_ hwf (Or.inl rfl) (Or.inl ⟨by rw [hpc]; rfl, rfl⟩)
      intro j hj
      rw [hmu]
      constructor
      · intro he; cases he
      · intro he; exact absurd (Option.some.inj he).symm hj
    | unlocked =>
      have hpos := counter_pos w db aircrafts s hI i t ht (by rw [hpc]; rfl)
      rw [hpc] at h hhold hwf
      simp only at h
      have hmu : s.mu ≠ some i := fun hm => by
        have := hhold.2 hm
        simp [TaskPC.inCritical] at this
      rw [if_neg hpos] at h
      cases h
      refine Inv_update w db aircrafts s hI i t ht TaskPC.done (s.wg - 1) s.mu
        s.results (by rw [hpc]; rfl) (by simp [TaskPC.hasEnded]) ?_ (fun _ _ => Iff.rfl)
        hwf (Or.inl rfl) (Or.inl ⟨by rw [hpc]; rfl, rfl⟩)
      simp [TaskPC.inCritical, hmu]
    | done =>
      rw [hpc] at h
      cases h
    | panicking p =>
      have hpos := counter_pos w db aircrafts s hI i t ht (by rw [hpc]; rfl)
      rw [hpc] at h hhold hwf
      simp only at h
      have hmu : s.mu ≠ some i := fun hm => by
        have := hhold.2 hm
        simp [TaskPC.inCritical] at this
      rw [if_neg hpos] at h
      cases h
      refine Inv_update w db aircrafts s hI i t ht (TaskPC.unwound p) (s.wg - 1) s.mu
        s.results (by rw [hpc]; rfl) (by simp [TaskPC.hasEnded]) ?_ (fun _ _ => Iff.rfl)
        hwf (Or.inl rfl) (Or.inl ⟨by rw [hpc]; rfl, rfl⟩)
      simp [TaskPC.inCritical, hmu]
    | unwound p =>
      rw [hpc] at h hwf
      cases h
      refine ⟨hI.launched, hI.counter, hI.holder, hI.held, hI.pcs, hI.stored, hI.joined,
        hI.shown, ?_⟩
      intro q hq
      cases hq
      exact ⟨t.a, mem_aircrafts_of_task w db aircrafts s hI i t ht, hwf⟩

theorem Inv_step (w : Nat) (db : Database) (aircrafts : List Aircraft) (s s1 : State)
    (hI : Inv w db aircrafts s) (c : Choice) (h : step w db s c = some s1) :
    Inv w db aircrafts s1 := by
  unfold step at h
  cases hp : s.exited with
  | some p => rw [hp] at h; cases h
  | none =>
    rw [hp] at h
    cases c with
    | main => exact Inv_stepMain w db aircrafts s s1 hI h
    | task i elapsed => exact Inv_stepTask w db aircrafts s s1 hI i elapsed h

theorem Inv_run (w : Nat) (db : Database) (aircrafts : List Aircraft) (sched : List Choice) :
    ∀ s s1 : State, Inv w db aircrafts s → run w db s sched = some s1 → Inv w db aircrafts s1 := by
  induction sched with
  | nil => intro s s1 hI h; cases h; exact hI
  | cons c cs ih =>
    intro s s1 hI h
    rw [run] at h
    cases hs : step w db s c with
    | none => rw [hs] at h; cases h
    | some s2 =>
      rw [hs] at h
      exact ih s2 s1 (Inv_step w db aircrafts s s2 hI c hs) h

/-! ### `calculateHandler` -/

theorem returns_of_ended (w : Nat) (db : Database) (results : List Result) (a : Aircraft)
    (pc : TaskPC) (hwf : pc.wellFormed w db results a) (he : pc.hasEnded = true) :
    pc.hasAppended = returns w db a := by
  cases pc with
  | done => exact hwf.symm
  | unwound p =>
    have h : calculateSeatsSum w db a.Code = Except.error p := hwf
    simp [TaskPC.hasAppended, returns, h]
  | start => cases he
  | computed r => cases he
  | locked r => cases he
  | appending r old => cases he
  | appended => cases he
  | unlocked => cases he
  | panicking p => cases he

theorem rendered_perm (w : Nat) (db : Database) (aircrafts : List Aircraft) (s : State)
    (hI : Inv w db aircrafts s) (d : CalculationPageData) (hd : s.main = MainPC.rendered d) :
    List.Perm (d.Results.map Result.pair)
      ((aircrafts.filter (returns w db)).map (expectedPair w db)) := by
  have hpast : s.main.pastWait = true := by rw [hd]; rfl
  have hended := hI.joined hpast
  have hl := hI.launched
  rw [hd] at hl
  simp only [MainPC.pending, List.append_nil] at hl
  have hf : s.tasks.filter (fun t => t.pc.hasAppended)
      = s.tasks.filter (fun t => returns w db t.a) := by
    apply List.filter_congr
    intro t ht
    obtain ⟨i, hi⟩ := List.mem_iff_getElem?.1 ht
    exact returns_of_ended w db s.results t.a t.pc (hI.pcs i t hi) (hended t ht)
  have hst := hI.stored
  rw [hf, ← hI.shown d hd] at hst
  have hmap : (s.tasks.filter (fun t => returns w db t.a)).map (fun t => expectedPair w db t.a)
      = ((s.tasks.map Task.a).filter (returns w db)).map (expectedPair w db) := by
    rw [List.filter_map, List.map_map]
    rfl
  rw [hmap, hl] at hst
  exact hst

theorem calculateHandler_responded (w : Nat) (db : Database) (sched : List Choice)
    (resp : Response) (h : calculateHandler w db sched = CalcRun.responded resp) :
    (∃ e, db.aircrafts = Except.error e ∧
        resp = Response.error (goString "Database error") 500) ∨
      (∃ rows data, db.aircrafts = Except.ok rows ∧
        resp = Response.template (goString "results.html") (TemplateData.calculation data) ∧
        List.Perm (data.Results.map Result.pair)
          (((scanLoop rows []).filter (returns w db)).map (expectedPair w db))) := by
  unfold calculateHandler at h
  cases hq : db.aircrafts with
  | error e =>
    rw [hq] at h
    simp only at h
    cases h
    exact Or.inl ⟨e, rfl, rfl⟩
  | ok rows =>
    rw [hq] at h
    simp only at h
    right
    cases hr : run w db (fanOutInit (scanLoop rows [])) sched with
    | none => rw [hr] at h; cases h
    | some s =>
      rw [hr] at h
      simp only at h
      have hI := Inv_run w db _ sched _ s (Inv_init w db (scanLoop rows [])) hr
      cases hp : s.exited with
      | some p => rw [hp] at h; cases h
      | none =>
        rw [hp] at h
        simp only at h
        cases hm : s.main with
        | rendered d =>
          rw [hm] at h
          cases h
          exact ⟨rows, d, rfl, rfl, rendered_perm w db _ s hI d hm⟩
        | loop rest => rw [hm] at h; cases h
        | launch a rest => rw [hm] at h; cases h
        | afterWait => rw [hm] at h; cases h

set_option maxRecDepth 8192 in
theorem sample_run_inOrder :
    calculateHandler 64 sampleDb scheduleInOrder = CalcRun.responded
      (Response.template (goString "results.html") (TemplateData.calculation
        { Results := [{ AircraftCode := goString "320", Square := 16, TimeTaken := 5 },
                      { AircraftCode := goString "733", Square := 0, TimeTaken := 7 }] })) := by
  decide

set_option maxRecDepth 8192 in
theorem sample_run_overtaking :
    calculateHandler 64 sampleDb scheduleOvertaking = CalcRun.responded
      (Response.template (goString "results.html") (TemplateData.calculation
        { Results := [{ AircraftCode := goString "733", Square := 0, TimeTaken := 3 },
                      { AircraftCode := goString "320", Square := 16, TimeTaken := 9 }] })) := by
  decide

/-- C5 fails on the code. With aircraft `"320"`, whose one seat row scans to
the empty string, and aircraft `"733"` with the seat `"1A"`, the aircraft list
read has two aircraft, and in the run where the goroutine of `"733"` finishes,
the goroutine of `"320"` panics and runs its deferred `wg.Done()`, and the
handler then passes `wg.Wait()`, the page is rendered with the one `Result` of
`"733"`: one `Result` for two aircraft.  In the run where the process ends
first there is no page at all. -/
theorem calculateHandler_panic_drops_result :
    emptySeatDb.aircrafts
        = Except.ok [some { Code := goString "320" }, some { Code := goString "733" }] ∧
      (scanLoop [some ({ Code := goString "320" } : Aircraft),
        some { Code := goString "733" }] []).length = 2 ∧
      calculateSeatsSum 64 emptySeatDb (goString "320")
        = Except.error Panic.sliceBoundsOutOfRange ∧
      calculateHandler 64 emptySeatDb scheduleRenderBeforeExit = CalcRun.responded
        (Response.template (goString "results.html") (TemplateData.calculation
          { Results := [{ AircraftCode := goString "733", Square := 1, TimeTaken := 7 }] })) ∧
      calculateHandler 64 emptySeatDb scheduleExitFirst
        = CalcRun.crashed Panic.sliceBoundsOutOfRange := by
  decide

/-- C8. Two runs of `calculateHandler` over the same database, under any two
schedules of the goroutines, that both end with a response show the same
`{AircraftCode, Square}` pairs: the two lists of pairs are permutations of each
other, so the sets of pairs are equal; only `TimeTaken` and the order may
differ. -/
theorem calculateHandler_same_pairs (w : Nat) (db : Database) (sched1 sched2 : List Choice)
    (resp1 resp2 : Response) (h1 : calculateHandler w db sched1 = CalcRun.responded resp1)
    (h2 : calculateHandler w db sched2 = CalcRun.responded resp2) :
    List.Perm resp1.pairs resp2.pairs ∧ (∀ p, p ∈ resp1.pairs ↔ p ∈ resp2.pairs) ∧
      resp1.status = resp2.status := by
  have hperm : List.Perm resp1.pairs resp2.pairs ∧ resp1.status = resp2.status := by
    rcases calculateHandler_responded w db sched1 resp1 h1 with
      ⟨e1, he1, hr1⟩ | ⟨rows1, d1, hq1, hr1, hp1⟩
    · rcases calculateHandler_responded w db sched2 resp2 h2 with
        ⟨e2, he2, hr2⟩ | ⟨rows2, d2, hq2, hr2, hp2⟩
      · rw [hr1, hr2]
        exact ⟨List.Perm.refl _, rfl⟩
      · rw [he1] at hq2; cases hq2
    · rcases calculateHandler_responded w db sched2 resp2 h2 with
        ⟨e2, he2, hr2⟩ | ⟨rows2, d2, hq2, hr2, hp2⟩
      · rw [he2] at hq1; cases hq1
      · rw [hq1] at hq2
        cases hq2
        rw [hr1, hr2]
        exact ⟨hp1.trans hp2.symm, rfl⟩
  exact ⟨hperm.1, fun p => hperm.1.mem_iff, hperm.2⟩

/-- Witness of `calculateHandler_same_pairs`: the sample database under the two
sample schedules, which give the results in the two possible orders. -/
theorem calculateHandler_same_pairs_witness :
    calculateHandler 64 sampleDb scheduleInOrder = CalcRun.responded
        (Response.template (goString "results.html") (TemplateData.calculation
          { Results := [{ AircraftCode := goString "320", Square := 16, TimeTaken := 5 },
                        { AircraftCode := goString "733", Square := 0, TimeTaken := 7 }] })) ∧
      calculateHandler 64 sampleDb scheduleOvertaking = CalcRun.responded
        (Response.template (goString "results.html") (TemplateData.calculation
          { Results := [{ AircraftCode := goString "733", Square := 0, TimeTaken := 3 },
                        { AircraftCode := goString "320", Square := 16, TimeTaken := 9 }] })) ∧
      List.Perm [(goString "320", (16 : Int)), (goString "733", (0 : Int))]
        [(goString "733", (0 : Int)), (goString "320", (16 : Int))] :=
  ⟨sample_run_inOrder, sample_run_overtaking,
    (calculateHandler_same_pairs 64 sampleDb scheduleInOrder scheduleOvertaking _ _
      sample_run_inOrder sample_run_overtaking).1⟩

theorem seatsLoop_panic (w : Nat) (rows : List (Option GoString)) :
    ∀ (sum : Int) (p : Panic), seatsLoop w rows sum = Except.error p →
      p = Panic.sliceBoundsOutOfRange := by
  induction rows with
  | nil => intro sum p h; cases h
  | cons row rest ih =>
    intro sum p h
    rw [seatsLoop] at h
    cases hs : seatStep w sum row with
    | ok sum1 =>
      rw [hs] at h
      exact ih sum1 p h
    | error q =>
      rw [hs] at h
      cases h
      cases row with
      | none => cases hs
      | some seat =>
        cases seat with
        | nil => cases hs; rfl
        | cons c cs =>
          rw [seatStep_some w sum (c :: cs) (List.cons_ne_nil _ _)] at hs
          split at hs <;> cases hs

theorem calculateSeatsSum_panic (w : Nat) (db : Database) (code : GoString) (p : Panic)
    (h : calculateSeatsSum w db code = Except.error p) : p = Panic.sliceBoundsOutOfRange := by
  unfold calculateSeatsSum at h
  cases hq : db.seats code with
  | error e => rw [hq] at h; cases h
  | ok rows =>
    rw [hq] at h
    exact seatsLoop_panic w rows 0 p h

/-- C10. In every state the fan-out of `calculateHandler` reaches, under
whatever schedule: (join) once the handler is past `wg.Wait()`, a goroutine has
been launched for every aircraft and the function of every goroutine has ended,
by returning or, when its `calculateSeatsSum` panics, by unwinding, and the page
is rendered from the value of `results` at that time, which holds one pair for
every aircraft whose goroutine returned; (mutual exclusion) a goroutine is
between `mu.Lock()` and `mu.Unlock()`, where the append is, exactly when it is
the one that took the mutex, so no two goroutines are there at once; the mutex
is not held by a goroutine that has not yet queried and squared, and such a
goroutine can always take its step, whoever holds the mutex; (no lost or
interleaved append) the slice a goroutine has read for its append is still the
value of `results` when it stores, and `results` holds exactly the pairs of the
goroutines that have stored; and neither `mu.Unlock()` nor `wg.Done()` ever
fails, the only panic being that of `calculateSeatsSum`. -/
theorem fanOut_join_and_mutual_exclusion (w : Nat) (db : Database)
    (aircrafts : List Aircraft) (sched : List Choice) (s : State)
    (hr : run w db (fanOutInit aircrafts) sched = some s) :
    (s.main.pastWait = true →
        s.tasks.map Task.a = aircrafts ∧ ∀ t ∈ s.tasks, t.pc.hasEnded = true) ∧
      (∀ d, s.main = MainPC.rendered d → d.Results = s.results ∧
        List.Perm (d.Results.map Result.pair)
          ((aircrafts.filter (returns w db)).map (expectedPair w db))) ∧
      (∀ (i : Nat) (t : Task), s.tasks[i]? = some t →
        (t.pc.inCritical = true ↔ s.mu = some i)) ∧
      (∀ (i j : Nat) (ti tj : Task), s.tasks[i]? = some ti → s.tasks[j]? = some tj →
        ti.pc.inCritical = true → tj.pc.inCritical = true → i = j) ∧
      (∀ (i : Nat) (t : Task), s.tasks[i]? = some t → t.pc.isStart = true → s.mu ≠ some i) ∧
      (∀ (i : Nat) (t : Task) (elapsed : Int), s.tasks[i]? = some t → t.pc.isStart = true →
        s.exited = none → ∃ s1, step w db s (Choice.task i elapsed) = some s1) ∧
      (∀ (i : Nat) (t : Task) (r : Result) (old : List Result), s.tasks[i]? = some t →
        t.pc = TaskPC.appending r old → old = s.results) ∧
      List.Perm (s.results.map Result.pair)
        ((s.tasks.filter (fun t => t.pc.hasAppended)).map (fun t => expectedPair w db t.a)) ∧
      s.exited ≠ some Panic.unlockOfUnlockedMutex ∧
      s.exited ≠ some Panic.negativeWaitGroupCounter ∧
      (∀ (i : Nat) (t : Task) (p : Panic), s.tasks[i]? = some t →
        t.pc = TaskPC.panicking p ∨ t.pc = TaskPC.unwound p →
        p = Panic.sliceBoundsOutOfRange ∧ calculateSeatsSum w db t.a.Code = Except.error p) := by
  have hI := Inv_run w db aircrafts sched _ s (Inv_init w db aircrafts) hr
  refine ⟨?_, ?_, hI.holder, ?_, ?_, ?_, ?_, hI.stored, ?_, ?_, ?_⟩
  · intro hp
    refine ⟨?_, hI.joined hp⟩
    have hl := hI.launched
    cases hm : s.main with
    | loop rest => rw [hm] at hp; simp [MainPC.pastWait] at hp
    | launch a rest => rw [hm] at hp; simp [MainPC.pastWait] at hp
    | afterWait => rw [hm] at hl; simpa [MainPC.pending] using hl
    | rendered d => rw [hm] at hl; simpa [MainPC.pending] using hl
  · intro d hd
    exact ⟨hI.shown d hd, rendered_perm w db aircrafts s hI d hd⟩
  · intro i j ti tj hi hj hci hcj
    have h1 := (hI.holder i ti hi).1 hci
    have h2 := (hI.holder j tj hj).1 hcj
    rw [h1] at h2
    exact Option.some.inj h2
  · intro i t hi hst hmu
    have hc := (hI.holder i t hi).2 hmu
    cases hpc : t.pc <;> rw [hpc] at hc hst <;> simp [TaskPC.inCritical, TaskPC.isStart] at hc hst
  · intro i t elapsed hi hst hp
    have hpc : t.pc = TaskPC.start := by
      cases hpc : t.pc <;> rw [hpc] at hst <;> simp [TaskPC.isStart] at hst ⊢
    unfold step
    rw [hp]
    simp only
    unfold stepTask
    rw [hi]
    simp only
    rw [hpc]
    simp only
    cases taskResult w db t.a elapsed <;> exact ⟨_, rfl⟩
  · intro i t r old hi hpc
    have := hI.pcs i t hi
    rw [hpc] at this
    exact this.2
  · intro hp
    obtain ⟨a, _, ha⟩ := hI.died _ hp
    have := calculateSeatsSum_panic w db _ _ ha
    cases this
  · intro hp
    obtain ⟨a, _, ha⟩ := hI.died _ hp
    have := calculateSeatsSum_panic w db _ _ ha
    cases this
  · intro i t p hi hpc
    have hwf := hI.pcs i t hi
    have he : calculateSeatsSum w db t.a.Code = Except.error p := by
      rcases hpc with hpc | hpc <;> rw [hpc] at hwf <;> exact hwf
    exact ⟨calculateSeatsSum_panic w db _ _ he, he⟩

set_option maxRecDepth 8192 in
theorem sample_run_mid :
    run 64 sampleDb (fanOutInit [{ Code := goString "320" }, { Code := goString "733" }])
      (scheduleOvertaking.take 7) = some sampleMidState := by
  decide

/-- Witness of `fanOut_join_and_mutual_exclusion`: the sample database after the
first seven steps of `scheduleOvertaking`, where the second goroutine holds the
lock and the first is kept out. -/
theorem fanOut_join_and_mutual_exclusion_witness :
    run 64 sampleDb (fanOutInit [{ Code := goString "320" }, { Code := goString "733" }])
        (scheduleOvertaking.take 7) = some sampleMidState ∧
      sampleMidState.mu = some 1 ∧
      step 64 sampleDb sampleMidState (Choice.task 0 0) = none ∧
      (∀ (i j : Nat) (ti tj : Task), sampleMidState.tasks[i]? = some ti →
        sampleMidState.tasks[j]? = some tj →
        ti.pc.inCritical = true → tj.pc.inCritical = true → i = j) :=
  ⟨sample_run_mid, rfl, by decide,
    (fanOut_join_and_mutual_exclusion 64 sampleDb _ _ _ sample_run_mid).2.2.2.1⟩

/-- C6 fails on the code. With aircraft `"320"`, whose one seat row scans to
the empty string, and aircraft `"733"`, whose seat query fails,
`calculateSeatsSum` does return 0 for `"733"`; but in the run where the goroutine
of `"320"` panics, unwinds, and the process ends before the handler launches
the goroutine of `"733"`, no `Result` is appended for `"733"` and no page is
rendered. -/
theorem failing_seat_query_lost_in_crash :
    emptySeatAndFailingDb.aircrafts
        = Except.ok [some { Code := goString "320" }, some { Code := goString "733" }] ∧
      emptySeatAndFailingDb.seats (goString "733") = Except.error DbError.queryFailed ∧
      calculateSeatsSum 64 emptySeatAndFailingDb (goString "733") = Except.ok 0 ∧
      calculateHandler 64 emptySeatAndFailingDb scheduleExitFirst
        = CalcRun.crashed Panic.sliceBoundsOutOfRange ∧
      (run 64 emptySeatAndFailingDb
          (fanOutInit [{ Code := goString "320" }, { Code := goString "733" }])
          scheduleExitFirst).map State.results = some [] := by
  decide

/-! ### The list handlers -/

/-- C7. A request to `flightsHandler` whose `airport` parameter is absent, or
present with an empty first value, gets status 400 with the body
`Airport code required`, whatever the database: no query is issued and no
template is rendered. -/
theorem flightsHandler_requires_airport (db : Database) (r : Request)
    (h : r.URLQuery (goString "airport") = [] ∨
      (r.URLQuery (goString "airport")).head? = some []) :
    flightsHandler db r
        = { queries := [],
            response := Response.error (goString "Airport code required") 400 } ∧
      (flightsHandler db r).response.status = 400 ∧
      (flightsHandler db r).queries = [] ∧
      (∀ name data, (flightsHandler db r).response ≠ Response.template name data) := by
  have hget : r.queryGet (goString "airport") = [] := by
    unfold Request.queryGet
    rcases h with h | h
    · rw [h]
    · cases hv : r.URLQuery (goString "airport") with
      | nil => rfl
      | cons v vs =>
        rw [hv] at h
        simp only [List.head?_cons, Option.some.injEq] at h
        exact h
  have hres : flightsHandler db r
      = { queries := [],
          response := Response.error (goString "Airport code required") 400 } := by
    unfold flightsHandler
    simp only [hget, if_true]
  rw [hres]
  refine ⟨rfl, rfl, rfl, ?_⟩
  intro name data hc
  cases hc

/-- Witness of `flightsHandler_requires_airport`: a request without an `airport`
parameter against a database every query of which fails. -/
theorem flightsHandler_requires_airport_witness :
    ((airportRequest []).URLQuery (goString "airport") = [] ∨
        ((airportRequest []).URLQuery (goString "airport")).head? = some []) ∧
      flightsHandler failingDb (airportRequest [])
        = { queries := [],
            response := Response.error (goString "Airport code required") 400 } :=
  ⟨Or.inl (by decide),
    (flightsHandler_requires_airport failingDb (airportRequest []) (Or.inl (by decide))).1⟩

/-- C9. An empty result set is not an error.  When the `airport` parameter is
a non-empty code and the flight query for it succeeds with zero rows,
`flightsHandler` answers 200 and renders `flights.html` with that code and an
empty flight list; when the airport query succeeds with zero rows,
`airportsHandler` answers 200 and renders `airports.html` with an empty airport
list. -/
theorem empty_result_is_rendered (db : Database) (r : Request) :
    (r.queryGet (goString "airport") ≠ [] →
        db.flights (r.queryGet (goString "airport")) = Except.ok [] →
        flightsHandler db r
          = { queries := [Query.flights (r.queryGet (goString "airport"))],
              response := Response.template (goString "flights.html")
                (TemplateData.flights
                  { AirportCode := r.queryGet (goString "airport"), Flights := [] }) } ∧
        (flightsHandler db r).response.status = 200) ∧
      (db.airports = Except.ok [] →
        airportsHandler db
          = { queries := [Query.airports],
              response := Response.template (goString "airports.html")
                (TemplateData.airports []) } ∧
        (airportsHandler db).response.status = 200) := by
  constructor
  · intro hne hq
    have hres : flightsHandler db r
        = { queries := [Query.flights (r.queryGet (goString "airport"))],
            response := Response.template (goString "flights.html")
              (TemplateData.flights
                { AirportCode := r.queryGet (goString "airport"), Flights := [] }) } := by
      unfold flightsHandler
      simp only [hne, if_false, hq, scanLoop]
    rw [hres]
    exact ⟨rfl, rfl⟩
  · intro hq
    have hres : airportsHandler db
        = { queries := [Query.airports],
            response := Response.template (goString "airports.html")
              (TemplateData.airports []) } := by
      unfold airportsHandler
      simp only [hq, scanLoop]
    rw [hres]
    exact ⟨rfl, rfl⟩

/-- Witness of `empty_result_is_rendered`: the request `/flights?airport=XYZ`
against the sample database, which has no airports and no flights. -/
theorem empty_result_is_rendered_witness :
    (airportRequest [goString "XYZ"]).queryGet (goString "airport") ≠ [] ∧
      sampleDb.flights ((airportRequest [goString "XYZ"]).queryGet (goString "airport"))
        = Except.ok [] ∧
      sampleDb.airports = Except.ok [] ∧
      (flightsHandler sampleDb (airportRequest [goString "XYZ"])).response
        = Response.template (goString "flights.html")
            (TemplateData.flights { AirportCode := goString "XYZ", Flights := [] }) ∧
      (airportsHandler sampleDb).response
        = Response.template (goString "airports.html") (TemplateData.airports []) :=
  ⟨by decide, rfl, rfl,
    by
      have h := ((empty_result_is_rendered sampleDb (airportRequest [goString "XYZ"])).1
        (by decide) rfl).1
      rw [h]
      rfl,
    by
      have h := ((empty_result_is_rendered sampleDb (airportRequest [goString "XYZ"])).2 rfl).1
      rw [h]⟩

end Goproject
